import Mathlib

/-!
# app-assets-generator: colour theme resolution and density mapping

A shallow embedding of the Go packages `pkg/color` and `pkg/image`.

Modelling conventions
* A Go `string` is its sequence of bytes, `GoString = List Nat`; comparison of
  strings is the lexicographic order on the bytes, as in Go.
* A Go `float64` (`Alpha`, `Opacity`, the channels of `hexToRGB`) is a
  `Float64`: a finite value given by its exact rational, negative zero, an
  infinity or NaN. Comparisons are those of IEEE 754 (every comparison with NaN
  is false, `!=` is true), and the results of multiplication and division are
  rounded to the nearest float64, ties to even. The constants in the table of
  densities (`Scale`, 1, 1.5, 2, 3, 4), which are never computed with, stay
  rationals.
* A Go pointer that may be nil is an `Option`.
* A Go `map[K]V` is the list of its entries, with pairwise different keys, in
  the order in which a `range` loop over it visits them.
* Calls into the file system are taken to succeed; what is written is returned
  as data.
-/

/-- A Go string: its bytes. -/
abbrev GoString := List Nat

/-- The bytes of an ASCII string literal. -/
def str (s : String) : GoString := s.data.map Char.toNat

/-! ## Go's float64 -/

/-- A Go `float64`: a finite value (its exact rational; positive zero is
`finite 0`), negative zero, an infinity or NaN. -/
inductive Float64 where
  | finite (q : ℚ)
  | negZero
  | posInf
  | negInf
  | nan
deriving DecidableEq

namespace Float64

/-- A numeral, as a constant of type float64. -/
instance (n : Nat) : OfNat Float64 n := ⟨finite n⟩

/-- The place of a value on the extended number line: the class (-1 for
-Inf, 0 for a finite value, 1 for +Inf) and the rational; `none` for NaN. Both
zeros have the same place. -/
def ord : Float64 → Option (ℤ × ℚ)
  | finite q => some (0, q)
  | negZero => some (0, 0)
  | posInf => some (1, 0)
  | negInf => some (-1, 0)
  | nan => none

/-- Go's `a < b` on float64: false when either side is NaN. -/
def lt (a b : Float64) : Bool :=
  match a.ord, b.ord with
  | some x, some y => decide (x.1 < y.1 ∨ (x.1 = y.1 ∧ x.2 < y.2))
  | _, _ => false

/-- Go's `a > b` on float64. -/
def gt (a b : Float64) : Bool := lt b a

/-- Go's `a == b` on float64: false when either side is NaN. -/
def eq (a b : Float64) : Bool :=
  match a.ord, b.ord with
  | some x, some y => decide (x = y)
  | _, _ => false

/-- Go's `a != b` on float64: true when either side is NaN. -/
def ne (a b : Float64) : Bool := !eq a b

/-- Rounding of a rational to the nearest integer, ties to the even one. -/
def roundHalfEven (t : ℚ) : ℤ :=
  if t - ⌊t⌋ < 1 / 2 then ⌊t⌋
  else if 1 / 2 < t - ⌊t⌋ then ⌊t⌋ + 1
  else if ⌊t⌋ % 2 = 0 then ⌊t⌋ else ⌊t⌋ + 1

/-- The exponent of the unit in the last place of a positive magnitude `x`:
53 significant bits, and -1074 in the subnormal range. -/
def ulpExponent (x : ℚ) : ℤ := max (Int.log 2 x - 52) (-1074)

/-- A positive magnitude rounded to a multiple of its unit in the last place. -/
def roundMagnitude (x : ℚ) : ℚ :=
  (roundHalfEven (x / (2 : ℚ) ^ ulpExponent x) : ℚ) * (2 : ℚ) ^ ulpExponent x

/-- The float64 nearest to the real number of the given sign and magnitude
`x ≥ 0` (round to nearest, ties to even; overflow gives an infinity, a result
that rounds to nothing gives a zero of the sign). -/
def ofSignMagnitude (neg : Bool) (x : ℚ) : Float64 :=
  let r := if x = 0 then 0 else roundMagnitude x
  if (2 : ℚ) ^ 1024 ≤ r then (if neg then negInf else posInf)
  else if r = 0 then (if neg then negZero else finite 0)
  else finite (if neg then -r else r)

/-- The sign bit (of NaN it is not looked at). -/
def signBit : Float64 → Bool
  | finite q => decide (q < 0)
  | negZero => true
  | posInf => false
  | negInf => true
  | nan => false

/-- The magnitude of a finite value; `none` for the infinities and NaN. -/
def magnitude? : Float64 → Option ℚ
  | finite q => some |q|
  | negZero => some 0
  | _ => none

/-- Whether the value is NaN. -/
def isNaN : Float64 → Bool
  | nan => true
  | _ => false

/-- The infinity of a sign. -/
def inf (neg : Bool) : Float64 := if neg then negInf else posInf

/-- The zero of a sign. -/
def zero (neg : Bool) : Float64 := if neg then negZero else finite 0

/-- Go's `a * b` on float64. -/
def mul (a b : Float64) : Float64 :=
  if a.isNaN || b.isNaN then nan
  else
    let neg := xor a.signBit b.signBit
    match a.magnitude?, b.magnitude? with
    | some x, some y => ofSignMagnitude neg (x * y)
    | some x, none => if x = 0 then nan else inf neg
    | none, some y => if y = 0 then nan else inf neg
    | none, none => inf neg

/-- Go's `a / b` on float64. -/
def div (a b : Float64) : Float64 :=
  if a.isNaN || b.isNaN then nan
  else
    let neg := xor a.signBit b.signBit
    match a.magnitude?, b.magnitude? with
    | some x, some y =>
      if y = 0 then (if x = 0 then nan else inf neg) else ofSignMagnitude neg (x / y)
    | some _, none => zero neg
    | none, some _ => inf neg
    | none, none => nan

/-- The conversion `float64(n)` of an `int`. -/
def ofInt (n : ℤ) : Float64 := ofSignMagnitude (decide (n < 0)) |(n : ℚ)|

end Float64

/-- A Go map, as the list of its entries in iteration order. -/
abbrev GoMap (K V : Type) := List (K × V)

namespace GoMap

variable {K V : Type} [DecidableEq K]

/-- Keys of the map, in iteration order. -/
def keys (m : GoMap K V) : List K := m.map Prod.fst

/-- Map read `m[k]`, with `none` for an absent key. -/
def get? (m : GoMap K V) (k : K) : Option V :=
  match m with
  | [] => none
  | (k0, v0) :: rest => if k0 = k then some v0 else get? rest k

/-- Map assignment `m[k] = v`. -/
def set (m : GoMap K V) (k : K) (v : V) : GoMap K V :=
  match m with
  | [] => [(k, v)]
  | (k0, v0) :: rest => if k0 = k then (k0, v) :: rest else (k0, v0) :: set rest k v

end GoMap

namespace color

/-! ## pkg/color/types.go -/

/-- ColorValue of `types.go`. -/
structure ColorValue where
  Hex : GoString
  Alpha : Float64
deriving DecidableEq

/-- The zero value `ColorValue{}`. -/
def ColorValue.zero : ColorValue := { Hex := [], Alpha := 0 }

/-- ColorDefinition of `types.go`. The field `Stops` (a slice of maps to
`interface{}`) is read by no function and is left out; the field `Type` is `Type_` here, `Type`
being a keyword. -/
structure ColorDefinition where
  Hex : GoString
  Alpha : Float64
  Default : Option ColorValue
  Light : Option ColorValue
  Dark : Option ColorValue
  Type_ : GoString
  Angle : GoString
  Opacity : Float64
deriving DecidableEq

namespace ColorDefinition

/-- IsSimple: `c.Hex != "" && c.Default == nil && c.Type_ == ""`. -/
def IsSimple (c : ColorDefinition) : Bool :=
  c.Hex != [] && c.Default.isNone && c.Type_ == []

/-- IsGradient: `c.Type_ != ""`. -/
def IsGradient (c : ColorDefinition) : Bool :=
  c.Type_ != []

/-- GetDefault of `types.go`. -/
def GetDefault (c : ColorDefinition) : ColorValue :=
  if c.IsSimple then { Hex := c.Hex, Alpha := c.Alpha }
  else match c.Default with
    | some d => d
    | none =>
      match c.Light with
      | some l => l
      | none => ColorValue.zero

/-- GetLight of `types.go`. -/
def GetLight (c : ColorDefinition) : ColorValue :=
  if c.IsSimple then { Hex := c.Hex, Alpha := c.Alpha }
  else match c.Light with
    | some l => l
    | none => c.GetDefault

/-- GetDark of `types.go`. -/
def GetDark (c : ColorDefinition) : ColorValue :=
  if c.IsSimple then { Hex := c.Hex, Alpha := c.Alpha }
  else match c.Dark with
    | some d => d
    | none => c.GetDefault

end ColorDefinition

/-! ## pkg/color/parser.go -/

/-- The errors that `validateColor` returns (its messages, without the
formatted name and value). -/
inductive ColorError where
  | nilDefinition
  | invalidHex
  | alphaRange
  | noThemeColor
  | defaultHex
  | defaultAlpha
  | lightHex
  | lightAlpha
  | darkHex
  | darkAlpha
deriving DecidableEq

/-- The test on one byte inside the loop of `isValidHex`. -/
def isHexByte (c : Nat) : Bool :=
  ('0'.toNat ≤ c && c ≤ '9'.toNat) || ('a'.toNat ≤ c && c ≤ 'f'.toNat) ||
    ('A'.toNat ≤ c && c ≤ 'F'.toNat)

/-- isValidHex of `parser.go`. -/
def isValidHex (hex : GoString) : Bool :=
  if hex.length != 7 || hex.getD 0 0 != '#'.toNat then false
  else (List.range' 1 6).all (fun i => isHexByte (hex.getD i 0))

/-- validateColor of `parser.go`; `none` is the nil error. The name only
goes into the error messages. -/
def validateColor (_name : GoString) (color : Option ColorDefinition) : Option ColorError :=
  match color with
  | none => some ColorError.nilDefinition
  | some color =>
    if color.IsGradient then none
    else if color.IsSimple then
      if !isValidHex color.Hex then some ColorError.invalidHex
      else if Float64.lt color.Alpha 0 || Float64.gt color.Alpha 1 then
        some ColorError.alphaRange
      else none
    else if color.Default.isNone && color.Light.isNone && color.Dark.isNone then
      some ColorError.noThemeColor
    else
      let checkDefault : Option ColorError :=
        match color.Default with
        | some d =>
          if !isValidHex d.Hex then some ColorError.defaultHex
          else if Float64.lt d.Alpha 0 || Float64.gt d.Alpha 1 then
            some ColorError.defaultAlpha
          else none
        | none => none
      let checkLight : Option ColorError :=
        match color.Light with
        | some l =>
          if !isValidHex l.Hex then some ColorError.lightHex
          else if Float64.lt l.Alpha 0 || Float64.gt l.Alpha 1 then
            some ColorError.lightAlpha
          else none
        | none => none
      let checkDark : Option ColorError :=
        match color.Dark with
        | some d =>
          if !isValidHex d.Hex then some ColorError.darkHex
          else if Float64.lt d.Alpha 0 || Float64.gt d.Alpha 1 then
            some ColorError.darkAlpha
          else none
        | none => none
      match checkDefault with
      | some e => some e
      | none =>
        match checkLight with
        | some e => some e
        | none => checkDark

/-! ## pkg/color/android.go -/

/-- AndroidGenerator of `android.go`. -/
structure AndroidGenerator where
  outputPath : GoString

/-- A file that a generator writes: the components of its path and its bytes. -/
structure WrittenFile where
  path : List GoString
  content : GoString
deriving DecidableEq

/-- Conversion `int(f)` of a float64 to the 64-bit `int`: the fraction is
dropped. For a value that does not fit (an infinity, NaN, a magnitude from 2^63
on) Go leaves the result to the implementation; amd64 gives -2^63, which is
taken here. -/
def goInt : Float64 → ℤ
  | Float64.finite q =>
    let t : ℤ := if 0 ≤ q then ⌊q⌋ else ⌈q⌉
    if -2 ^ 63 ≤ t ∧ t < 2 ^ 63 then t else -2 ^ 63
  | Float64.negZero => 0
  | _ => -2 ^ 63

/-- Upper-case hexadecimal digits of a natural number, as `%X` prints them. -/
def upperHexDigits (n : Nat) : GoString :=
  (Nat.toDigits 16 n).map (fun c => c.toUpper.toNat)

/-- The verb `%02X` of `fmt.Sprintf` on an `int`: upper-case hexadecimal,
padded with zeros to two places, the sign of a negative number taking one. -/
def sprintf02X (n : ℤ) : GoString :=
  if n < 0 then '-'.toNat :: upperHexDigits n.natAbs
  else
    let ds := upperHexDigits n.toNat
    List.replicate (2 - ds.length) '0'.toNat ++ ds

/-- The call `strings.TrimPrefix(s, p)`. -/
def trimPrefix (s p : GoString) : GoString :=
  if p.isPrefixOf s then s.drop p.length else s

namespace AndroidGenerator

/-- formatAndroidColor of `android.go`. -/
def formatAndroidColor (_g : AndroidGenerator) (color : ColorValue) : GoString :=
  let hex := color.Hex
  if Float64.lt color.Alpha 1 then
    let alpha := goInt (Float64.mul color.Alpha 255)
    let hexValue := trimPrefix hex (str "#")
    str "#" ++ sprintf02X alpha ++ hexValue
  else hex

/-- The body `if names[i] > names[j] { swap }` of the inner loop of
`sortColorNames`. -/
def swapIfGreater (names : List GoString) (i j : Nat) : List GoString :=
  if names.getD i [] > names.getD j [] then
    (names.set i (names.getD j [])).set j (names.getD i [])
  else names

/-- The inner loop of `sortColorNames`: `j` from `i + 1` up to `len(names) - 1`. -/
def sortInner (names : List GoString) (i : Nat) : List GoString :=
  (List.range' (i + 1) (names.length - (i + 1))).foldl (fun ns j => swapIfGreater ns i j) names

/-- sortColorNames of `android.go`: the keys are appended in iteration order,
then sorted in place by the two nested loops. -/
def sortColorNames (_g : AndroidGenerator) (colors : GoMap GoString GoString) : List GoString :=
  let names := colors.keys
  (List.range (names.length - 1)).foldl sortInner names

/-- generateColorsXML of `android.go`: the file it writes. -/
def generateColorsXML (g : AndroidGenerator) (dirPath : List GoString)
    (colors : GoMap GoString GoString) : WrittenFile :=
  let header := str "<?xml version=\"1.0\" encoding=\"utf-8\"?>\n" ++ str "<resources>\n"
  let sortedNames := g.sortColorNames colors
  let body := sortedNames.foldl (fun out name =>
    let colorValue := (colors.get? name).getD []
    let androidName := name
    out ++ (str "    <color name=\"" ++ androidName ++ str "\">" ++ colorValue ++
      str "</color>" ++ str "\n")) []
  { path := dirPath ++ [str "colors.xml"],
    content := header ++ body ++ str "</resources>\n" }

/-- One pass of the loop over the palette in `Generate`, on the pair
(defaultColors, nightColors). -/
def collectColor (g : AndroidGenerator)
    (acc : GoMap GoString GoString × GoMap GoString GoString)
    (entry : GoString × ColorDefinition) :
    GoMap GoString GoString × GoMap GoString GoString :=
  let name := entry.1
  let color := entry.2
  if color.IsGradient then acc
  else
    let lightColor := color.GetLight
    let defaultColors :=
      if lightColor.Hex != [] then acc.1.set name (g.formatAndroidColor lightColor) else acc.1
    let darkColor := color.GetDark
    let nightColors :=
      if darkColor.Hex != [] then
        if darkColor.Hex != lightColor.Hex || Float64.ne darkColor.Alpha lightColor.Alpha then
          acc.2.set name (g.formatAndroidColor darkColor)
        else acc.2
      else acc.2
    (defaultColors, nightColors)

/-- What `Generate` builds and writes. -/
structure Output where
  dirs : List (List GoString)
  defaultColors : GoMap GoString GoString
  nightColors : GoMap GoString GoString
  files : List WrittenFile

/-- Generate of `android.go`. -/
def Generate (g : AndroidGenerator) (colors : GoMap GoString ColorDefinition) : Output :=
  let valuesPath := [g.outputPath, str "values"]
  let valuesNightPath := [g.outputPath, str "values-night"]
  let maps := colors.foldl g.collectColor ([], [])
  let defaultColors := maps.1
  let nightColors := maps.2
  let files := [g.generateColorsXML valuesPath defaultColors]
  let files :=
    if nightColors.length > 0 then files ++ [g.generateColorsXML valuesNightPath nightColors]
    else files
  { dirs := [valuesPath, valuesNightPath],
    defaultColors := defaultColors,
    nightColors := nightColors,
    files := files }

end AndroidGenerator

/-! ## pkg/color/generator.go -/

/-- The two calls into Go's package `fmt` that read and print numbers in
`generator.go`, taken as parameters: `fmt.Sscanf(hex, "#%02x%02x%02x", ...)`
(`none` when it returns an error) and `fmt.Sprintf("%.3f", f)`. -/
structure FmtCalls where
  sscanfHex : GoString → Option (ℤ × ℤ × ℤ)
  sprintf3f : Float64 → GoString

/-- hexToRGB of `generator.go`; the last component tells whether the error is
non-nil. -/
def hexToRGB (lib : FmtCalls) (hex : GoString) : Float64 × Float64 × Float64 × Bool :=
  if hex.length != 7 || hex.getD 0 0 != '#'.toNat then (0, 0, 0, true)
  else
    match lib.sscanfHex hex with
    | none => (0, 0, 0, true)
    | some (ri, gi, bi) =>
      (Float64.div (Float64.ofInt ri) 255, Float64.div (Float64.ofInt gi) 255,
        Float64.div (Float64.ofInt bi) 255, false)

/-- The loop of `formatFloat` that drops trailing zeros, run at most `fuel`
times. -/
def stripZeros : Nat → GoString → GoString
  | 0, s => s
  | fuel + 1, s =>
    if s.length > 1 && s.getD (s.length - 1) 0 == '0'.toNat &&
        s.getD (s.length - 2) 0 != '.'.toNat then
      stripZeros fuel (s.take (s.length - 1))
    else s

/-- formatFloat of `generator.go`. Every pass of the loop shortens `s` by one
byte, so `len(s)` passes are enough. -/
def formatFloat (lib : FmtCalls) (f : Float64) : GoString :=
  let s := lib.sprintf3f f
  stripZeros s.length s

/-! ## pkg/color/ios.go -/

/-- IOSGenerator of `ios.go`. -/
structure IOSGenerator where
  outputPath : GoString

/-- iOSComponents of `ios.go`. -/
structure iOSComponents where
  Alpha : GoString
  Blue : GoString
  Green : GoString
  Red : GoString
deriving DecidableEq

/-- iOSColorValue of `ios.go`. -/
structure iOSColorValue where
  ColorSpace : GoString
  Components : iOSComponents
deriving DecidableEq

/-- iOSAppearance of `ios.go`. -/
structure iOSAppearance where
  Appearance : GoString
  Value : GoString
deriving DecidableEq

/-- iOSColor of `ios.go`. -/
structure iOSColor where
  Color : Option iOSColorValue
  Appearances : List iOSAppearance
  Idiom : GoString
deriving DecidableEq

/-- iOSInfo of `ios.go`. -/
structure iOSInfo where
  Author : GoString
  Version : ℤ
deriving DecidableEq

/-- iOSColorSet of `ios.go`. -/
structure iOSColorSet where
  Colors : List iOSColor
  Info : iOSInfo
deriving DecidableEq

namespace IOSGenerator

/-- buildColorValue of `ios.go`. -/
def buildColorValue (_g : IOSGenerator) (lib : FmtCalls) (color : ColorValue) : iOSColorValue :=
  let rgb := hexToRGB lib color.Hex
  let r := rgb.1
  let green := rgb.2.1
  let b := rgb.2.2.1
  { ColorSpace := str "srgb",
    Components :=
      { Alpha := formatFloat lib color.Alpha,
        Red := formatFloat lib r,
        Green := formatFloat lib green,
        Blue := formatFloat lib b } }

/-- buildColorSet of `ios.go`. -/
def buildColorSet (g : IOSGenerator) (lib : FmtCalls) (color : ColorDefinition) : iOSColorSet :=
  let defaultColor := color.GetDefault
  let lightColor := color.GetLight
  let darkColor := color.GetDark
  let colors : List iOSColor := []
  let colors :=
    if defaultColor.Hex != [] then
      colors ++ [{ Color := some (g.buildColorValue lib defaultColor),
                   Appearances := [],
                   Idiom := str "universal" }]
    else colors
  let colors :=
    if lightColor.Hex != [] &&
        (lightColor.Hex != defaultColor.Hex ||
          Float64.ne lightColor.Alpha defaultColor.Alpha) then
      colors ++ [{ Appearances := [{ Appearance := str "luminosity", Value := str "light" }],
                   Color := some (g.buildColorValue lib lightColor),
                   Idiom := str "universal" }]
    else colors
  let colors :=
    if darkColor.Hex != [] &&
        (darkColor.Hex != defaultColor.Hex ||
          Float64.ne darkColor.Alpha defaultColor.Alpha) then
      colors ++ [{ Appearances := [{ Appearance := str "luminosity", Value := str "dark" }],
                   Color := some (g.buildColorValue lib darkColor),
                   Idiom := str "universal" }]
    else colors
  { Colors := colors, Info := { Author := str "xcode", Version := 1 } }

/-- A colorset that `generateColorSet` writes: the components of the path of
its `Contents.json` and the data that is encoded into it. -/
structure ColorSetFile where
  path : List GoString
  colorSet : iOSColorSet
deriving DecidableEq

/-- generateColorSet of `ios.go`. -/
def generateColorSet (g : IOSGenerator) (lib : FmtCalls) (outputPath name : GoString)
    (color : ColorDefinition) : ColorSetFile :=
  let colorsetPath := [outputPath, name ++ str ".colorset"]
  let colorSet := g.buildColorSet lib color
  { path := colorsetPath ++ [str "Contents.json"], colorSet := colorSet }

/-- Generate of `ios.go`: the colorsets written, with the palette name of
each, in the order of the loop. -/
def Generate (g : IOSGenerator) (lib : FmtCalls) (colors : GoMap GoString ColorDefinition) :
    List (GoString × ColorSetFile) :=
  colors.foldl (fun out entry =>
    let name := entry.1
    let color := entry.2
    if color.IsGradient then out
    else out ++ [(name, g.generateColorSet lib g.outputPath name color)]) []

end IOSGenerator

end color

namespace image

/-! ## pkg/image/generator.go and pkg/image/android.go -/

/-- ImageInfo of `generator.go`. -/
structure ImageInfo where
  Name : GoString
  Files : List GoString
  Extension : GoString
  Has1x : Bool
  Has2x : Bool
  Has3x : Bool
deriving DecidableEq

/-- AndroidImageGenerator of `android.go`. -/
structure AndroidImageGenerator where
  inputPath : GoString
  outputPath : GoString

/-- AndroidDensity of `android.go`. -/
structure AndroidDensity where
  Name : GoString
  Scale : ℚ
  Directory : GoString
deriving DecidableEq

/-- The table androidDensities of `android.go`. -/
def androidDensities : List AndroidDensity :=
  [ { Name := str "mdpi", Scale := 1, Directory := str "drawable-mdpi" },
    { Name := str "hdpi", Scale := 3 / 2, Directory := str "drawable-hdpi" },
    { Name := str "xhdpi", Scale := 2, Directory := str "drawable-xhdpi" },
    { Name := str "xxhdpi", Scale := 3, Directory := str "drawable-xxhdpi" },
    { Name := str "xxxhdpi", Scale := 4, Directory := str "drawable-xxxhdpi" } ]

/-- The element `androidDensities[i]`. -/
def androidDensity (i : Nat) : AndroidDensity :=
  androidDensities.getD i { Name := [], Scale := 0, Directory := [] }

namespace AndroidImageGenerator

/-- getAndroidMapping of `android.go`. -/
def getAndroidMapping (_g : AndroidImageGenerator) (imageInfo : ImageInfo) :
    GoMap AndroidDensity GoString :=
  let mapping : GoMap AndroidDensity GoString := []
  let mapping :=
    if imageInfo.Has1x then
      mapping.set (androidDensity 0) (imageInfo.Name ++ imageInfo.Extension)
    else mapping
  let mapping :=
    if imageInfo.Has2x then
      let fileName2x := imageInfo.Name ++ str "@2x" ++ imageInfo.Extension
      let mapping := if !imageInfo.Has1x then mapping.set (androidDensity 0) fileName2x else mapping
      let mapping := mapping.set (androidDensity 1) fileName2x
      mapping.set (androidDensity 2) fileName2x
    else mapping
  let mapping :=
    if imageInfo.Has3x then
      let fileName3x := imageInfo.Name ++ str "@3x" ++ imageInfo.Extension
      let mapping := mapping.set (androidDensity 3) fileName3x
      let mapping := mapping.set (androidDensity 4) fileName3x
      if !imageInfo.Has2x then
        let mapping := mapping.set (androidDensity 2) fileName3x
        if !imageInfo.Has1x then
          let mapping := mapping.set (androidDensity 0) fileName3x
          mapping.set (androidDensity 1) fileName3x
        else mapping
      else mapping
    else mapping
  let mapping :=
    if imageInfo.Has1x && !imageInfo.Has2x && !imageInfo.Has3x then
      let fileName1x := imageInfo.Name ++ imageInfo.Extension
      (List.range androidDensities.length).foldl
        (fun m i => m.set (androidDensity i) fileName1x) mapping
    else mapping
  mapping

end AndroidImageGenerator

end image

/-! ## Sample inputs -/

namespace color

/-- A themed entry: default black, dark white. -/
def brandEntry : ColorDefinition :=
  { Hex := [], Alpha := 0,
    Default := some { Hex := str "#000000", Alpha := 1 },
    Light := none,
    Dark := some { Hex := str "#FFFFFF", Alpha := 1 },
    Type_ := [], Angle := [], Opacity := 0 }

/-- A Simple entry: red. -/
def plainEntry : ColorDefinition :=
  { Hex := str "#FF0000", Alpha := 1, Default := none, Light := none, Dark := none,
    Type_ := [], Angle := [], Opacity := 0 }

/-- An entry with a gradient Type tag that also carries a hex. -/
def gradientEntry : ColorDefinition :=
  { Hex := str "#00FF00", Alpha := 1, Default := none, Light := none, Dark := none,
    Type_ := str "linear", Angle := str "90", Opacity := 1 }

/-- A palette of a themed and a Simple colour. -/
def samplePalette : GoMap GoString ColorDefinition :=
  [(str "brand", brandEntry), (str "plain", plainEntry)]

/-- A palette with a gradient entry. -/
def gradientPalette : GoMap GoString ColorDefinition :=
  [(str "fade", gradientEntry), (str "plain", plainEntry)]

/-- An Android generator writing under `out`. -/
def sampleAndroid : AndroidGenerator := { outputPath := str "out" }

/-- An iOS generator writing under `out`. -/
def sampleIOS : IOSGenerator := { outputPath := str "out" }

/-- Stand-ins for the two `fmt` calls, for evaluating the iOS emitter on
sample inputs. -/
def sampleFmt : FmtCalls := { sscanfHex := fun _ => none, sprintf3f := fun _ => [] }

end color

/-! ## Reference notions, following the words of the specification -/

namespace color

/-- Follows the spec's words: a hex colour is `#` followed by six characters
from `0-9`, `a-f`, `A-F`. -/
def isHexColorRef (hex : GoString) : Bool :=
  match hex with
  | [] => false
  | h :: d =>
    h == '#'.toNat && d.length == 6 &&
      d.all (fun c => (str "0123456789abcdefABCDEF").contains c)

/-- Follows the spec's words: the upper-case hexadecimal digit of a value
below sixteen. -/
def upperHexDigit (d : Nat) : Nat := (str "0123456789ABCDEF").getD d 0

/-- A half-transparent red. -/
def halfRed : ColorValue := { Hex := str "#FF0000", Alpha := Float64.finite (1 / 2) }

end color

namespace color

/-- A map of two formatted colours, as `Generate` hands it to
`generateColorsXML`. -/
def sampleColorMap : GoMap GoString GoString :=
  [(str "brand", str "#000000"), (str "accent", str "#80FF0000")]

end color

namespace color

/-- A themed entry with only `dark` set. -/
def darkOnlyEntry : ColorDefinition :=
  { Hex := [], Alpha := 0, Default := none, Light := none,
    Dark := some { Hex := str "#000000", Alpha := 1 },
    Type_ := [], Angle := [], Opacity := 0 }

end color

namespace image

/-- The five density buckets, by name. -/
def mdpi : AndroidDensity := { Name := str "mdpi", Scale := 1, Directory := str "drawable-mdpi" }

/-- The bucket hdpi. -/
def hdpi : AndroidDensity :=
  { Name := str "hdpi", Scale := 3 / 2, Directory := str "drawable-hdpi" }

/-- The bucket xhdpi. -/
def xhdpi : AndroidDensity :=
  { Name := str "xhdpi", Scale := 2, Directory := str "drawable-xhdpi" }

/-- The bucket xxhdpi. -/
def xxhdpi : AndroidDensity :=
  { Name := str "xxhdpi", Scale := 3, Directory := str "drawable-xxhdpi" }

/-- The bucket xxxhdpi. -/
def xxxhdpi : AndroidDensity :=
  { Name := str "xxxhdpi", Scale := 4, Directory := str "drawable-xxxhdpi" }

/-- An image generator reading `in` and writing `out`. -/
def sampleImageGenerator : AndroidImageGenerator :=
  { inputPath := str "in", outputPath := str "out" }

/-- An image scanned with its 1x and 2x files. -/
def iconInfo : ImageInfo :=
  { Name := str "icon", Files := [str "icon.png", str "icon@2x.png"],
    Extension := str ".png", Has1x := true, Has2x := true, Has3x := false }

end image

namespace image

/-! ## pkg/image/generator.go: the scan -/

/-- The call `filepath.Ext(path)`, its loop written from index `i - 1` down:
the suffix from the last dot of the last path element, empty without a dot.
The path separator is `/`. -/
def extScan (path : GoString) : Nat → GoString
  | 0 => []
  | i + 1 =>
    if path.getD i 0 == '/'.toNat then []
    else if path.getD i 0 == '.'.toNat then path.drop i
    else extScan path i

/-- The call `filepath.Ext(path)`. -/
def filepathExt (path : GoString) : GoString := extScan path path.length

/-- The call `strings.ToLower(s)` on ASCII bytes: `A`-`Z` become `a`-`z`.
Bytes from 0x80 on are left as they are (Go maps the letters of other
alphabets as well). -/
def toLower (s : GoString) : GoString :=
  s.map (fun c => if 'A'.toNat ≤ c ∧ c ≤ 'Z'.toNat then c + 32 else c)

/-- The call `strings.HasSuffix(s, suffix)`. -/
def hasSuffix (s suffix : GoString) : Bool :=
  decide (s.length ≥ suffix.length) && s.drop (s.length - suffix.length) == suffix

/-- The call `strings.TrimSuffix(s, suffix)`. -/
def trimSuffix (s suffix : GoString) : GoString :=
  if hasSuffix s suffix then s.take (s.length - suffix.length) else s

/-- parseImageName of `generator.go`. -/
def parseImageName (fileName : GoString) : GoString × GoString :=
  let nameWithoutExt := trimSuffix fileName (filepathExt fileName)
  if hasSuffix nameWithoutExt (str "@3x") then (trimSuffix nameWithoutExt (str "@3x"), str "3x")
  else if hasSuffix nameWithoutExt (str "@2x") then
    (trimSuffix nameWithoutExt (str "@2x"), str "2x")
  else (nameWithoutExt, str "1x")

/-- isSupportedImageFormat of `generator.go`. -/
def isSupportedImageFormat (ext : GoString) : Bool :=
  let supportedFormats := [str ".png", str ".jpg", str ".jpeg", str ".svg", str ".pdf"]
  supportedFormats.any (fun format => ext == format)

/-- The callback that `scanImages` hands to `filepath.Walk`, on a regular
file of name `fileName`. -/
def scanFile (images : GoMap GoString ImageInfo) (fileName : GoString) :
    GoMap GoString ImageInfo :=
  let ext := toLower (filepathExt fileName)
  if !isSupportedImageFormat ext then images
  else
    let parsed := parseImageName fileName
    let baseName := parsed.1
    let scale := parsed.2
    let images :=
      if (images.get? baseName).isNone then
        images.set baseName
          { Name := baseName, Extension := ext, Files := [],
            Has1x := false, Has2x := false, Has3x := false }
      else images
    match images.get? baseName with
    | none => images
    | some imageInfo =>
      let imageInfo := { imageInfo with Files := imageInfo.Files ++ [fileName] }
      let imageInfo :=
        if scale = str "1x" then { imageInfo with Has1x := true }
        else if scale = str "2x" then { imageInfo with Has2x := true }
        else if scale = str "3x" then { imageInfo with Has3x := true }
        else imageInfo
      images.set baseName imageInfo

/-- scanImages of `generator.go`, on the names of the regular files in the
order in which `filepath.Walk` visits them. -/
def scanImages (fileNames : List GoString) : GoMap GoString ImageInfo :=
  fileNames.foldl scanFile []

/-! ## pkg/image/ios.go -/

/-- IOSImageGenerator of `ios.go`. -/
structure IOSImageGenerator where
  inputPath : GoString
  outputPath : GoString

/-- iOSImage of `ios.go`; a slot without file has the empty Filename. -/
structure iOSImage where
  Filename : GoString
  Idiom : GoString
  Scale : GoString
deriving DecidableEq

/-- iOSInfo of `ios.go`. -/
structure iOSInfo where
  Author : GoString
  Version : ℤ
deriving DecidableEq

/-- iOSImageSet of `ios.go`. -/
structure iOSImageSet where
  Images : List iOSImage
  Info : iOSInfo
deriving DecidableEq

namespace IOSImageGenerator

/-- buildImageSet of `ios.go`. -/
def buildImageSet (_g : IOSImageGenerator) (imageInfo : ImageInfo) : iOSImageSet :=
  let images : List iOSImage := []
  let images :=
    if imageInfo.Has1x then
      let fileName := imageInfo.Name ++ imageInfo.Extension
      images ++ [{ Filename := fileName, Idiom := str "universal", Scale := str "1x" }]
    else images ++ [{ Filename := [], Idiom := str "universal", Scale := str "1x" }]
  let images :=
    if imageInfo.Has2x then
      let fileName := imageInfo.Name ++ str "@2x" ++ imageInfo.Extension
      images ++ [{ Filename := fileName, Idiom := str "universal", Scale := str "2x" }]
    else images ++ [{ Filename := [], Idiom := str "universal", Scale := str "2x" }]
  let images :=
    if imageInfo.Has3x then
      let fileName := imageInfo.Name ++ str "@3x" ++ imageInfo.Extension
      images ++ [{ Filename := fileName, Idiom := str "universal", Scale := str "3x" }]
    else images ++ [{ Filename := [], Idiom := str "universal", Scale := str "3x" }]
  { Images := images, Info := { Author := str "xcode", Version := 1 } }

/-- getIOSFileName of `ios.go`. -/
def getIOSFileName (_g : IOSImageGenerator) (_imageInfo : ImageInfo)
    (originalFileName : GoString) : GoString :=
  originalFileName

end IOSImageGenerator

/-! ## Sample inputs -/

/-- An image scanned with its 1x file only. -/
def only1xInfo : ImageInfo :=
  { Name := str "logo", Files := [str "logo.png"], Extension := str ".png",
    Has1x := true, Has2x := false, Has3x := false }

/-- An image scanned with its 3x file only. -/
def only3xInfo : ImageInfo :=
  { Name := str "logo", Files := [str "logo@3x.png"], Extension := str ".png",
    Has1x := false, Has2x := false, Has3x := true }

/-- An ImageInfo value with empty Name and Extension and the 1x flag set. -/
def blankInfo : ImageInfo :=
  { Name := [], Files := [], Extension := [], Has1x := true, Has2x := false, Has3x := false }

/-- An iOS image generator reading `in` and writing `out`. -/
def sampleIOSImageGenerator : IOSImageGenerator :=
  { inputPath := str "in", outputPath := str "out" }

end image

namespace color

/-- The condition of the loop of `formatFloat`:
`len(s) > 1 && s[len(s)-1] == '0' && s[len(s)-2] != '.'`. -/
def stripGuard (s : GoString) : Bool :=
  s.length > 1 && s.getD (s.length - 1) 0 == '0'.toNat && s.getD (s.length - 2) 0 != '.'.toNat

/-- Follows the spec's words: a decimal digit. -/
def isDigitRef (c : Nat) : Bool := (str "0123456789").contains c

end color

namespace image

/-- The ImageInfo that the scan builds from `icon.png` and `icon@2x.jpg`. -/
def mixedInfo : ImageInfo :=
  { Name := str "icon", Files := [str "icon.png", str "icon@2x.jpg"],
    Extension := str ".png", Has1x := true, Has2x := true, Has3x := false }

/-- The ImageInfo that the scan builds from `logo.PNG`. -/
def upperInfo : ImageInfo :=
  { Name := str "logo", Files := [str "logo.PNG"],
    Extension := str ".png", Has1x := true, Has2x := false, Has3x := false }

end image

namespace color

/-- The float64 nearest to 0.6, which is what `alpha: 0.6` parses to. -/
def sixTenthsAlpha : ℚ := 5404319552844595 / 9007199254740992

/-- A red of alpha 0.6. -/
def sixTenthsRed : ColorValue :=
  { Hex := str "#FF0000", Alpha := Float64.finite sixTenthsAlpha }

/-- A Simple red whose alpha is NaN (YAML `alpha: .nan`). -/
def nanEntry : ColorDefinition :=
  { Hex := str "#FF0000", Alpha := Float64.nan, Default := none, Light := none, Dark := none,
    Type_ := [], Angle := [], Opacity := 0 }

/-- The palette with the single colour `plain` of alpha NaN. -/
def nanPalette : GoMap GoString ColorDefinition := [(str "plain", nanEntry)]

end color

/-! # Theorems -/

/-! ## Rounding to float64 -/

namespace Float64

theorem roundHalfEven_bounds (t : ℚ) (A B : ℤ) (hA : (A : ℚ) ≤ t) (hB : t ≤ (B : ℚ)) :
    A ≤ roundHalfEven t ∧ roundHalfEven t ≤ B := by
  have hfl : A ≤ ⌊t⌋ := Int.le_floor.mpr hA
  have hfu : ⌊t⌋ ≤ B := by
    have h1 : (⌊t⌋ : ℚ) ≤ t := Int.floor_le t
    exact_mod_cast h1.trans hB
  have hstep : t - ⌊t⌋ ≠ 0 → ⌊t⌋ + 1 ≤ B := by
    intro hne
    have h1 : (⌊t⌋ : ℚ) ≤ t := Int.floor_le t
    have h2 : (⌊t⌋ : ℚ) < B := by
      rcases lt_or_eq_of_le (h1.trans hB) with h | h
      · exact h
      · exfalso
        apply hne
        have h3 : t = (B : ℚ) := le_antisymm hB (h ▸ h1)
        rw [h3, Int.floor_intCast]
        simp
    have h3 : ⌊t⌋ < B := by exact_mod_cast h2
    omega
  unfold roundHalfEven
  split_ifs with h1 h2 h3
  · exact ⟨hfl, hfu⟩
  · refine ⟨by omega, hstep ?_⟩
    intro h0
    rw [h0] at h2
    norm_num at h2
  · exact ⟨hfl, hfu⟩
  · refine ⟨by omega, hstep ?_⟩
    intro h0
    rw [h0] at h1
    norm_num at h1

theorem ulpExponent_of_binade (x : ℚ) (k : ℤ) (hk : -1022 ≤ k) (h1 : (2 : ℚ) ^ k ≤ x)
    (h2 : x < (2 : ℚ) ^ (k + 1)) : ulpExponent x = k - 52 := by
  have hpos : 0 < x := lt_of_lt_of_le (by positivity) h1
  have hlog : Int.log 2 x = k := by
    apply le_antisymm
    · have h := (Int.lt_zpow_iff_log_lt (b := 2) (by norm_num) hpos (x := k + 1)).mp
        (by simpa using h2)
      omega
    · exact (Int.zpow_le_iff_le_log (b := 2) (by norm_num) hpos (x := k)).mp (by simpa using h1)
  unfold ulpExponent
  rw [hlog]
  omega

theorem ulpExponent_le (x : ℚ) (hpos : 0 < x) (hx : x < 256) : ulpExponent x ≤ -45 := by
  have h := (Int.lt_zpow_iff_log_lt (b := 2) (by norm_num) hpos (x := 8)).mp (by
    simpa using (by norm_num; exact hx : x < (2 : ℚ) ^ (8 : ℤ)))
  unfold ulpExponent
  omega

theorem roundMagnitude_bounds (x : ℚ) (n : ℤ) (hpos : 0 < x) (hx : x < 256)
    (hl : (n : ℚ) ≤ x) (hu : x ≤ (n : ℚ) + 1) :
    (n : ℚ) ≤ roundMagnitude x ∧ roundMagnitude x ≤ (n : ℚ) + 1 := by
  have he := ulpExponent_le x hpos hx
  obtain ⟨k, hk⟩ : ∃ k : ℕ, ulpExponent x = -(k : ℤ) :=
    ⟨(-ulpExponent x).toNat, by rw [Int.toNat_of_nonneg (by omega)]; ring⟩
  have hK : (0 : ℚ) < (2 : ℚ) ^ k := by positivity
  have hz : (2 : ℚ) ^ ulpExponent x = ((2 : ℚ) ^ k)⁻¹ := by
    rw [hk, zpow_neg, zpow_natCast]
  unfold roundMagnitude
  rw [hz, div_inv_eq_mul]
  have hb := roundHalfEven_bounds (x * (2 : ℚ) ^ k) (n * 2 ^ k) ((n + 1) * 2 ^ k)
    (by push_cast; exact mul_le_mul_of_nonneg_right hl hK.le)
    (by push_cast; exact mul_le_mul_of_nonneg_right hu hK.le)
  have h1 : ((n * 2 ^ k : ℤ) : ℚ) ≤ (roundHalfEven (x * (2 : ℚ) ^ k) : ℚ) := by
    exact_mod_cast hb.1
  have h2 : (roundHalfEven (x * (2 : ℚ) ^ k) : ℚ) ≤ (((n + 1) * 2 ^ k : ℤ) : ℚ) := by
    exact_mod_cast hb.2
  push_cast at h1 h2
  constructor
  · rw [le_mul_inv_iff₀ hK]
    exact h1
  · rw [mul_inv_le_iff₀ hK]
    exact h2

/-- The product of a value of [0,1) with 255 is a finite value between the
floor of the exact product and the next integer. -/
theorem mul_255_bounds (q : ℚ) (h0 : 0 ≤ q) (h1 : q < 1) :
    ∃ p : ℚ, mul (finite q) 255 = finite p ∧
      ((⌊q * 255⌋ : ℤ) : ℚ) ≤ p ∧ p ≤ ((⌊q * 255⌋ : ℤ) : ℚ) + 1 := by
  have hmul : mul (finite q) 255 = ofSignMagnitude false (q * 255) := by
    have hs : ¬ q < 0 := not_lt.mpr h0
    have h255 : (255 : Float64) = finite 255 := rfl
    rw [h255]
    have hn : ¬ (255 : ℚ) < 0 := by norm_num
    simp [mul, isNaN, signBit, magnitude?, hs, hn, abs_of_nonneg h0]
  rw [hmul]
  by_cases hx0 : q * 255 = 0
  · refine ⟨0, ?_, ?_, ?_⟩
    · simp [ofSignMagnitude, hx0]
    · rw [hx0]; simp
    · rw [hx0]; simp
  · have hpos : 0 < q * 255 := lt_of_le_of_ne (by positivity) (Ne.symm hx0)
    have hlt : q * 255 < 256 := by linarith
    have hb := roundMagnitude_bounds (q * 255) ⌊q * 255⌋ hpos hlt (Int.floor_le _)
      (le_of_lt (Int.lt_floor_add_one _))
    have hfl : ((⌊q * 255⌋ : ℤ) : ℚ) ≤ 254 := by
      have : ⌊q * 255⌋ < 255 := by
        rw [Int.floor_lt]
        push_cast
        linarith
      have h2 : ⌊q * 255⌋ ≤ 254 := by omega
      exact_mod_cast h2
    have hsmall : ¬ ((2 : ℚ) ^ 1024 ≤ roundMagnitude (q * 255)) := by
      have h3 : roundMagnitude (q * 255) ≤ 255 := by linarith [hb.2]
      have h4 : (255 : ℚ) < (2 : ℚ) ^ 1024 := by norm_num
      linarith
    refine ⟨roundMagnitude (q * 255), ?_, hb.1, hb.2⟩
    by_cases hr0 : roundMagnitude (q * 255) = 0
    · simp [ofSignMagnitude, hx0, hr0]
    · simp [ofSignMagnitude, hx0, hr0, hsmall]

theorem mul_255_eval (q : ℚ) (k m : ℤ) (h0 : 0 < q) (hk : -1022 ≤ k)
    (hlo : (2 : ℚ) ^ k ≤ q * 255) (hhi : q * 255 < (2 : ℚ) ^ (k + 1))
    (hm : roundHalfEven (q * 255 / (2 : ℚ) ^ (k - 52)) = m)
    (hne : (m : ℚ) * (2 : ℚ) ^ (k - 52) ≠ 0)
    (hsmall : (m : ℚ) * (2 : ℚ) ^ (k - 52) < (2 : ℚ) ^ 1024) :
    mul (finite q) 255 = finite ((m : ℚ) * (2 : ℚ) ^ (k - 52)) := by
  have hs : ¬ q < 0 := not_lt.mpr h0.le
  have hn : ¬ (255 : ℚ) < 0 := by norm_num
  have h255 : (255 : Float64) = finite 255 := rfl
  have hx0 : q * 255 ≠ 0 := by positivity
  have hr : roundMagnitude (q * 255) = (m : ℚ) * (2 : ℚ) ^ (k - 52) := by
    unfold roundMagnitude
    rw [ulpExponent_of_binade (q * 255) k hk hlo hhi, hm]
  have hsm : ¬ ((2 : ℚ) ^ 1024 ≤ (m : ℚ) * (2 : ℚ) ^ (k - 52)) := not_le.mpr hsmall
  rw [h255]
  simp [mul, isNaN, signBit, magnitude?, hs, hn, abs_of_nonneg h0.le, ofSignMagnitude, hx0, hr,
    hsm, hne]

end Float64


/-! ## Go maps -/

namespace GoMap

variable {K V : Type} [DecidableEq K]

theorem get?_set (m : GoMap K V) (k k2 : K) (v : V) :
    (m.set k v).get? k2 = if k = k2 then some v else m.get? k2 := by
  induction m with
  | nil => simp [set, get?]
  | cons e rest ih =>
    obtain ⟨k0, v0⟩ := e
    by_cases h0 : k0 = k
    · subst h0
      by_cases h2 : k0 = k2 <;> simp [set, get?, h2]
    · by_cases h2 : k = k2
      · subst h2
        simp [set, get?, h0, ih]
      · by_cases h3 : k0 = k2
        · subst h3
          simp [set, get?, h0, h2]
        · simp [set, get?, h0, h2, h3, ih]

theorem get?_eq_none_of_not_mem_keys (m : GoMap K V) (k : K) (h : k ∉ m.keys) :
    m.get? k = none := by
  induction m with
  | nil => rfl
  | cons e rest ih =>
    obtain ⟨k0, v0⟩ := e
    simp only [keys, List.map_cons, List.mem_cons, not_or] at h
    have h1 : ¬ k0 = k := fun hh => h.1 hh.symm
    simp only [get?, h1, if_false]
    exact ih h.2

theorem mem_keys_iff_get? (m : GoMap K V) (k : K) :
    k ∈ m.keys ↔ ∃ v, m.get? k = some v := by
  induction m with
  | nil => simp [keys, get?]
  | cons e rest ih =>
    obtain ⟨k0, v0⟩ := e
    by_cases h : k0 = k
    · subst h
      simp [keys, get?]
    · have h2 : ¬ k = k0 := fun hh => h hh.symm
      have ih2 : k ∈ List.map Prod.fst rest ↔ ∃ v, get? rest k = some v := ih
      simp only [keys, List.map_cons, List.mem_cons, h2, false_or, get?, h, if_false]
      exact ih2

theorem get?_eq_some_of_mem (m : GoMap K V) (hk : m.keys.Nodup) (k : K) (v : V)
    (h : (k, v) ∈ m) : m.get? k = some v := by
  induction m with
  | nil => simp at h
  | cons e rest ih =>
    obtain ⟨k0, v0⟩ := e
    simp only [keys, List.map_cons, List.nodup_cons] at hk
    rcases List.mem_cons.mp h with h1 | h1
    · cases h1
      simp [get?]
    · have hmem : k ∈ List.map Prod.fst rest := List.mem_map.mpr ⟨(k, v), h1, rfl⟩
      have hne : ¬ k0 = k := fun hh => hk.1 (hh ▸ hmem)
      simp only [get?, hne, if_false]
      exact ih hk.2 h1

theorem mem_of_get?_eq_some (m : GoMap K V) (k : K) (v : V) (h : m.get? k = some v) :
    (k, v) ∈ m := by
  induction m with
  | nil => simp [get?] at h
  | cons e rest ih =>
    obtain ⟨k0, v0⟩ := e
    by_cases h0 : k0 = k
    · subst h0
      simp [get?] at h
      simp [h]
    · simp only [get?, h0, if_false] at h
      exact List.mem_cons_of_mem _ (ih h)

end GoMap

namespace color

open ColorDefinition

/-! ## The Android colour emitter (`android.go`) -/

namespace AndroidGenerator

theorem collectColor_get? (g : AndroidGenerator)
    (acc : GoMap GoString GoString × GoMap GoString GoString)
    (k : GoString) (c : ColorDefinition) (name : GoString) :
    ((g.collectColor acc (k, c)).1.get? name =
      if k = name ∧ c.IsGradient = false ∧ c.GetLight.Hex ≠ [] then
        some (g.formatAndroidColor c.GetLight)
      else acc.1.get? name) ∧
    ((g.collectColor acc (k, c)).2.get? name =
      if k = name ∧ c.IsGradient = false ∧ c.GetDark.Hex ≠ [] ∧
          (c.GetDark.Hex ≠ c.GetLight.Hex ∨ Float64.ne c.GetDark.Alpha c.GetLight.Alpha = true) then
        some (g.formatAndroidColor c.GetDark)
      else acc.2.get? name) := by
  unfold collectColor
  by_cases hg : c.IsGradient = true
  · simp [hg]
  · have hg2 : c.IsGradient = false := by simpa using hg
    simp only [hg2, Bool.false_eq_true, if_false, true_and]
    constructor
    · by_cases hl : c.GetLight.Hex = []
      · simp [hl]
      · by_cases hkn : k = name <;> simp [hl, hkn, GoMap.get?_set]
    · by_cases hd : c.GetDark.Hex = []
      · simp [hd]
      · by_cases hx : c.GetDark.Hex = c.GetLight.Hex
        · have hl : ¬ c.GetLight.Hex = [] := fun hh => hd (hx.trans hh)
          by_cases ha : Float64.ne c.GetDark.Alpha c.GetLight.Alpha = true
          · by_cases hkn : k = name <;> simp [hx, ha, hkn, hl, GoMap.get?_set]
          · simp [hx, ha]
        · by_cases hkn : k = name <;> simp [hd, hx, hkn, GoMap.get?_set]

theorem foldl_collectColor_get? (g : AndroidGenerator)
    (l : GoMap GoString ColorDefinition) (hk : l.keys.Nodup)
    (acc : GoMap GoString GoString × GoMap GoString GoString) (name : GoString) :
    ((l.foldl g.collectColor acc).1.get? name =
      match l.get? name with
      | some c =>
        if c.IsGradient = false ∧ c.GetLight.Hex ≠ [] then
          some (g.formatAndroidColor c.GetLight)
        else acc.1.get? name
      | none => acc.1.get? name) ∧
    ((l.foldl g.collectColor acc).2.get? name =
      match l.get? name with
      | some c =>
        if c.IsGradient = false ∧ c.GetDark.Hex ≠ [] ∧
            (c.GetDark.Hex ≠ c.GetLight.Hex ∨ Float64.ne c.GetDark.Alpha c.GetLight.Alpha = true) then
          some (g.formatAndroidColor c.GetDark)
        else acc.2.get? name
      | none => acc.2.get? name) := by
  induction l generalizing acc with
  | nil => simp [GoMap.get?]
  | cons e rest ih =>
    obtain ⟨k, c⟩ := e
    simp only [GoMap.keys, List.map_cons, List.nodup_cons] at hk
    have hrest := ih hk.2 (g.collectColor acc (k, c))
    have hstep := g.collectColor_get? acc k c name
    simp only [List.foldl_cons]
    by_cases hkn : k = name
    · subst hkn
      have hnone : GoMap.get? rest k = none :=
        GoMap.get?_eq_none_of_not_mem_keys rest k hk.1
      rw [hnone] at hrest
      simp only [GoMap.get?, if_true]
      simp only [true_and] at hstep
      exact ⟨hrest.1.trans hstep.1, hrest.2.trans hstep.2⟩
    · simp only [hkn, false_and, if_false] at hstep
      simp only [GoMap.get?, hkn, if_false]
      rw [hstep.1, hstep.2] at hrest
      exact hrest

end AndroidGenerator

end color

namespace color

open ColorDefinition

/-! ## Theme resolution (`types.go`) -/

/-- C1: for a definition that is not Simple, GetDefault is Default, else Light,
else the zero value; GetLight is Light, else GetDefault; GetDark is Dark, else
GetDefault (so Dark, Default, Light, zero); with only Default set the three
resolvers all return Default. -/
theorem C1_resolvers_follow_fallback_chains (c : ColorDefinition) (h : c.IsSimple = false) :
    c.GetDefault = ((c.Default <|> c.Light).getD { Hex := [], Alpha := 0 }) ∧
    c.GetLight = (c.Light.getD c.GetDefault) ∧
    c.GetDark = (c.Dark.getD c.GetDefault) ∧
    c.GetDark = ((c.Dark <|> c.Default <|> c.Light).getD { Hex := [], Alpha := 0 }) ∧
    (∀ d, c.Default = some d → c.Light = none → c.Dark = none →
      c.GetLight = d ∧ c.GetDark = d ∧ c.GetDefault = d) := by
  have hd : c.GetDefault = ((c.Default <|> c.Light).getD { Hex := [], Alpha := 0 }) := by
    unfold GetDefault
    rw [h]
    cases c.Default <;> cases c.Light <;> rfl
  have hl : c.GetLight = (c.Light.getD c.GetDefault) := by
    unfold GetLight
    rw [h]
    cases c.Light <;> rfl
  have hk : c.GetDark = (c.Dark.getD c.GetDefault) := by
    unfold GetDark
    rw [h]
    cases c.Dark <;> rfl
  refine ⟨hd, hl, hk, ?_, ?_⟩
  · rw [hk, hd]
    cases c.Dark <;> cases c.Default <;> cases c.Light <;> rfl
  · intro d h1 h2 h3
    rw [hl, hk, hd, h1, h2, h3]
    exact ⟨rfl, rfl, rfl⟩

/-- C1, at the themed definition with only `default: #112233` set. -/
theorem C1_resolvers_follow_fallback_chains_witness :
    (({ Hex := [], Alpha := 0, Default := some { Hex := str "#112233", Alpha := 1 },
        Light := none, Dark := none, Type_ := [], Angle := [], Opacity := 0 } :
        ColorDefinition).IsSimple = false) ∧
    (({ Hex := [], Alpha := 0, Default := some { Hex := str "#112233", Alpha := 1 },
        Light := none, Dark := none, Type_ := [], Angle := [], Opacity := 0 } :
        ColorDefinition).GetDark = { Hex := str "#112233", Alpha := 1 }) :=
  ⟨by decide,
   ((C1_resolvers_follow_fallback_chains
      { Hex := [], Alpha := 0, Default := some { Hex := str "#112233", Alpha := 1 },
        Light := none, Dark := none, Type_ := [], Angle := [], Opacity := 0 }
      (by decide)).2.2.2.2 { Hex := str "#112233", Alpha := 1 } rfl rfl rfl).2.1⟩

theorem simple_resolvers (c : ColorDefinition) (h : c.IsSimple = true) :
    (c.Hex ≠ [] ∧ c.Default = none ∧ c.Type_ = []) ∧
    c.GetDefault = { Hex := c.Hex, Alpha := c.Alpha } ∧
    c.GetLight = { Hex := c.Hex, Alpha := c.Alpha } ∧
    c.GetDark = { Hex := c.Hex, Alpha := c.Alpha } := by
  refine ⟨?_, ?_, ?_, ?_⟩
  · simpa [IsSimple, and_assoc] using h
  · simp [GetDefault, h]
  · simp [GetLight, h]
  · simp [GetDark, h]

/-- C2: for a Simple definition (Hex non-empty, Default unset, Type empty),
whatever Light and Dark hold, the three resolvers return the value made of the
top-level Hex and Alpha. -/
theorem C2_simple_resolves_to_single_value (c : ColorDefinition) (h : c.IsSimple = true) :
    (c.Hex ≠ [] ∧ c.Default = none ∧ c.Type_ = []) ∧
    c.GetDefault = { Hex := c.Hex, Alpha := c.Alpha } ∧
    c.GetLight = { Hex := c.Hex, Alpha := c.Alpha } ∧
    c.GetDark = { Hex := c.Hex, Alpha := c.Alpha } := by
  refine ⟨?_, ?_, ?_, ?_⟩
  · simpa [IsSimple, and_assoc] using h
  · simp [GetDefault, h]
  · simp [GetLight, h]
  · simp [GetDark, h]

/-- C2, at a Simple definition that also carries Light and Dark values. -/
theorem C2_simple_resolves_to_single_value_witness :
    (({ Hex := str "#FF0000", Alpha := 1, Default := none,
        Light := some { Hex := str "#00FF00", Alpha := 1 },
        Dark := some { Hex := str "#0000FF", Alpha := 1 },
        Type_ := [], Angle := [], Opacity := 0 } : ColorDefinition).IsSimple = true) ∧
    (({ Hex := str "#FF0000", Alpha := 1, Default := none,
        Light := some { Hex := str "#00FF00", Alpha := 1 },
        Dark := some { Hex := str "#0000FF", Alpha := 1 },
        Type_ := [], Angle := [], Opacity := 0 } : ColorDefinition).GetDark =
      { Hex := str "#FF0000", Alpha := 1 }) :=
  ⟨by decide,
   (C2_simple_resolves_to_single_value
      { Hex := str "#FF0000", Alpha := 1, Default := none,
        Light := some { Hex := str "#00FF00", Alpha := 1 },
        Dark := some { Hex := str "#0000FF", Alpha := 1 },
        Type_ := [], Angle := [], Opacity := 0 } (by decide)).2.2.2⟩

/-! ## Android night map and gradient entries -/

namespace IOSGenerator

theorem foldl_Generate_names (g : IOSGenerator) (lib : FmtCalls)
    (l : GoMap GoString ColorDefinition) (out : List (GoString × ColorSetFile)) :
    (l.foldl (fun out entry =>
        if entry.2.IsGradient then out
        else out ++ [(entry.1, g.generateColorSet lib g.outputPath entry.1 entry.2)]) out).map
      Prod.fst =
    out.map Prod.fst ++ (l.filter (fun e => !e.2.IsGradient)).map Prod.fst := by
  induction l generalizing out with
  | nil => simp
  | cons e rest ih =>
    simp only [List.foldl_cons]
    rw [ih]
    by_cases hg : e.2.IsGradient = true
    · simp [hg, List.filter_cons]
    · simp [hg, List.filter_cons]

end IOSGenerator

/-- What `Generate` does, with Go's `!=` on the alphas (true for NaN against
itself): the night map holds a name exactly when the definition of that name is
not a gradient, its dark value has a non-empty hex and `!=` tells it from the
light value in hex or alpha; the entry is then the formatted dark value; and
`values-night/colors.xml` is written exactly when some name is in the map. -/
theorem Generate_nightColors_iff (g : AndroidGenerator)
    (colors : GoMap GoString ColorDefinition) (hk : colors.keys.Nodup) :
    (∀ name v, (g.Generate colors).nightColors.get? name = some v ↔
      ∃ c, colors.get? name = some c ∧ c.IsGradient = false ∧ c.GetDark.Hex ≠ [] ∧
        (c.GetDark.Hex ≠ c.GetLight.Hex ∨ Float64.ne c.GetDark.Alpha c.GetLight.Alpha = true) ∧
        v = g.formatAndroidColor c.GetDark) ∧
    (∀ name, name ∈ (g.Generate colors).nightColors.keys ↔
      ∃ c, colors.get? name = some c ∧ c.IsGradient = false ∧ c.GetDark.Hex ≠ [] ∧
        (c.GetDark.Hex ≠ c.GetLight.Hex ∨ Float64.ne c.GetDark.Alpha c.GetLight.Alpha = true)) ∧
    ((∃ f ∈ (g.Generate colors).files,
        f.path = [g.outputPath, str "values-night", str "colors.xml"]) ↔
      ∃ name c, colors.get? name = some c ∧ c.IsGradient = false ∧ c.GetDark.Hex ≠ [] ∧
        (c.GetDark.Hex ≠ c.GetLight.Hex ∨ Float64.ne c.GetDark.Alpha c.GetLight.Alpha = true)) := by
  have hget : ∀ name v, (g.Generate colors).nightColors.get? name = some v ↔
      ∃ c, colors.get? name = some c ∧ c.IsGradient = false ∧ c.GetDark.Hex ≠ [] ∧
        (c.GetDark.Hex ≠ c.GetLight.Hex ∨ Float64.ne c.GetDark.Alpha c.GetLight.Alpha = true) ∧
        v = g.formatAndroidColor c.GetDark := by
    intro name v
    have h := (g.foldl_collectColor_get? colors hk ([], []) name).2
    have hn : (g.Generate colors).nightColors = (colors.foldl g.collectColor ([], [])).2 := rfl
    rw [hn, h]
    cases hc : GoMap.get? colors name with
    | none => simp [GoMap.get?]
    | some c =>
      by_cases hq : c.IsGradient = false ∧ c.GetDark.Hex ≠ [] ∧
          (c.GetDark.Hex ≠ c.GetLight.Hex ∨ Float64.ne c.GetDark.Alpha c.GetLight.Alpha = true)
      · simp only [hq, if_true, and_self, ne_eq, not_false_eq_true]
        constructor
        · intro hv
          exact ⟨c, rfl, hq.1, hq.2.1, hq.2.2, (Option.some.inj hv).symm⟩
        · rintro ⟨c2, hc2, _, _, _, hv⟩
          cases hc2
          rw [hv]
      · simp only [hq, if_false, GoMap.get?]
        constructor
        · intro hv
          cases hv
        · rintro ⟨c2, hc2, h1, h2, h3, _⟩
          cases hc2
          exact absurd ⟨h1, h2, h3⟩ hq
  have hkeys : ∀ name, name ∈ (g.Generate colors).nightColors.keys ↔
      ∃ c, colors.get? name = some c ∧ c.IsGradient = false ∧ c.GetDark.Hex ≠ [] ∧
        (c.GetDark.Hex ≠ c.GetLight.Hex ∨ Float64.ne c.GetDark.Alpha c.GetLight.Alpha = true) := by
    intro name
    rw [GoMap.mem_keys_iff_get?]
    constructor
    · rintro ⟨v, hv⟩
      obtain ⟨c, h1, h2, h3, h4, _⟩ := (hget name v).mp hv
      exact ⟨c, h1, h2, h3, h4⟩
    · rintro ⟨c, h1, h2, h3, h4⟩
      exact ⟨_, (hget name _).mpr ⟨c, h1, h2, h3, h4, rfl⟩⟩
  refine ⟨hget, hkeys, ?_⟩
  have hfiles : (g.Generate colors).files =
      if (g.Generate colors).nightColors.length > 0 then
        [g.generateColorsXML [g.outputPath, str "values"] (g.Generate colors).defaultColors] ++
          [g.generateColorsXML [g.outputPath, str "values-night"]
            (g.Generate colors).nightColors]
      else
        [g.generateColorsXML [g.outputPath, str "values"] (g.Generate colors).defaultColors] :=
    rfl
  have hne : str "values" ≠ str "values-night" := by decide
  constructor
  · rintro ⟨f, hf, hp⟩
    rw [hfiles] at hf
    by_cases hlen : (g.Generate colors).nightColors.length > 0
    · obtain ⟨e, he⟩ := List.exists_mem_of_length_pos hlen
      have hmem : e.1 ∈ (g.Generate colors).nightColors.keys :=
        List.mem_map.mpr ⟨e, he, rfl⟩
      obtain ⟨c, hc⟩ := (hkeys e.1).mp hmem
      exact ⟨e.1, c, hc⟩
    · exfalso
      simp only [hlen, if_false, List.mem_singleton] at hf
      rw [hf] at hp
      simp [AndroidGenerator.generateColorsXML, hne] at hp
  · rintro ⟨name, c, hc⟩
    have hmem : name ∈ (g.Generate colors).nightColors.keys := (hkeys name).mpr ⟨c, hc⟩
    have hlen : (g.Generate colors).nightColors.length > 0 := by
      have h2 := List.length_pos_of_mem hmem
      simpa [GoMap.keys] using h2
    refine ⟨g.generateColorsXML [g.outputPath, str "values-night"]
      (g.Generate colors).nightColors, ?_, ?_⟩
    · rw [hfiles]
      simp [hlen]
    · simp [AndroidGenerator.generateColorsXML]

/-- C3 fails on the code at the palette with the single Simple colour `plain`
of hex `#FF0000` and alpha NaN: its dark and light values are one and the same
value, yet the name is in the night map, with the same entry as in the default
map, and `values-night/colors.xml` is written. -/
theorem C3_nan_alpha_enters_night_map :
    nanPalette.keys.Nodup ∧
    nanPalette.get? (str "plain") = some nanEntry ∧
    nanEntry.IsGradient = false ∧
    nanEntry.GetDark = nanEntry.GetLight ∧
    (sampleAndroid.Generate nanPalette).nightColors.get? (str "plain") =
      some (str "#FF0000") ∧
    (sampleAndroid.Generate nanPalette).defaultColors.get? (str "plain") =
      some (str "#FF0000") ∧
    (∃ f ∈ (sampleAndroid.Generate nanPalette).files,
      f.path = [sampleAndroid.outputPath, str "values-night", str "colors.xml"]) := by
  have hnight : (sampleAndroid.Generate nanPalette).nightColors =
      [(str "plain", str "#FF0000")] := by decide
  refine ⟨by decide, by decide, by decide, by decide, by decide, by decide, ?_⟩
  refine ⟨sampleAndroid.generateColorsXML [sampleAndroid.outputPath, str "values-night"]
    (sampleAndroid.Generate nanPalette).nightColors, ?_, ?_⟩
  · have hfiles : (sampleAndroid.Generate nanPalette).files =
        if (sampleAndroid.Generate nanPalette).nightColors.length > 0 then
          [sampleAndroid.generateColorsXML [sampleAndroid.outputPath, str "values"]
              (sampleAndroid.Generate nanPalette).defaultColors] ++
            [sampleAndroid.generateColorsXML [sampleAndroid.outputPath, str "values-night"]
              (sampleAndroid.Generate nanPalette).nightColors]
        else
          [sampleAndroid.generateColorsXML [sampleAndroid.outputPath, str "values"]
            (sampleAndroid.Generate nanPalette).defaultColors] :=
      rfl
    rw [hfiles, hnight]
    simp
  · simp [AndroidGenerator.generateColorsXML]

/-- C7: a name whose definition carries a non-empty Type tag, whatever else the
definition holds, is in neither the default nor the night map of the Android
emitter, and the iOS emitter builds no colorset for it. -/
theorem C7_gradient_entries_are_skipped (ga : AndroidGenerator) (gi : IOSGenerator)
    (lib : FmtCalls) (colors : GoMap GoString ColorDefinition) (hk : colors.keys.Nodup)
    (name : GoString) (c : ColorDefinition) (hc : colors.get? name = some c)
    (ht : c.Type_ ≠ []) :
    name ∉ (ga.Generate colors).defaultColors.keys ∧
    name ∉ (ga.Generate colors).nightColors.keys ∧
    (ga.Generate colors).defaultColors.get? name = none ∧
    (ga.Generate colors).nightColors.get? name = none ∧
    (∀ e ∈ gi.Generate lib colors, e.1 ≠ name) := by
  have hg : c.IsGradient = true := by simpa [IsGradient] using ht
  have h := ga.foldl_collectColor_get? colors hk ([], []) name
  rw [hc] at h
  simp only [hg, Bool.true_eq_false, false_and, if_false, GoMap.get?] at h
  have hd : (ga.Generate colors).defaultColors.get? name = none := h.1
  have hn : (ga.Generate colors).nightColors.get? name = none := h.2
  refine ⟨?_, ?_, hd, hn, ?_⟩
  · rw [GoMap.mem_keys_iff_get?]
    rintro ⟨v, hv⟩
    rw [hd] at hv
    cases hv
  · rw [GoMap.mem_keys_iff_get?]
    rintro ⟨v, hv⟩
    rw [hn] at hv
    cases hv
  · intro e he hne
    have hmem : e.1 ∈ (gi.Generate lib colors).map Prod.fst := List.mem_map.mpr ⟨e, he, rfl⟩
    have hnames := gi.foldl_Generate_names lib colors []
    have hgen : (gi.Generate lib colors).map Prod.fst =
        (colors.filter (fun e => !e.2.IsGradient)).map Prod.fst := by
      simpa [IOSGenerator.Generate] using hnames
    rw [hgen] at hmem
    obtain ⟨e2, he2, hfst⟩ := List.mem_map.mp hmem
    obtain ⟨hin, hng⟩ := List.mem_filter.mp he2
    have hget := GoMap.get?_eq_some_of_mem colors hk e2.1 e2.2 hin
    rw [hfst, hne, hc] at hget
    cases hget
    simp [hg] at hng

/-- C7, at the palette entry `fade`, which has a Type tag next to a hex. -/
theorem C7_gradient_entries_are_skipped_witness :
    gradientPalette.keys.Nodup ∧ gradientPalette.get? (str "fade") = some gradientEntry ∧
    gradientEntry.Type_ ≠ [] ∧
    (sampleAndroid.Generate gradientPalette).defaultColors.get? (str "fade") = none :=
  ⟨by decide, by decide, by decide,
   (C7_gradient_entries_are_skipped sampleAndroid sampleIOS sampleFmt gradientPalette
      (by decide) (str "fade") gradientEntry (by decide) (by decide)).2.2.1⟩

/-! ## Android colour formatting -/

set_option maxRecDepth 100000 in
theorem sprintf02X_of_lt_256 : ∀ n, n < 256 →
    List.replicate (2 - (upperHexDigits n).length) '0'.toNat ++ upperHexDigits n =
      [upperHexDigit (n / 16), upperHexDigit (n % 16)] := by
  decide

theorem isHexColorRef_shape (hex : GoString) (h : isHexColorRef hex = true) :
    ∃ d : GoString, hex = '#'.toNat :: d ∧ d.length = 6 := by
  cases hex with
  | nil => simp [isHexColorRef] at h
  | cons a d =>
    simp only [isHexColorRef, Bool.and_eq_true, beq_iff_eq] at h
    exact ⟨d, by rw [h.1.1], h.1.2⟩

theorem goInt_finite_of_byte (p : ℚ) (h0 : 0 ≤ p) (h1 : p ≤ 255) :
    goInt (Float64.finite p) = ⌊p⌋ ∧ 0 ≤ ⌊p⌋ ∧ ⌊p⌋ ≤ 255 := by
  have hge : 0 ≤ ⌊p⌋ := Int.floor_nonneg.mpr h0
  have hle : ⌊p⌋ ≤ 255 := by
    have h2 : (⌊p⌋ : ℚ) ≤ 255 := (Int.floor_le p).trans h1
    exact_mod_cast h2
  refine ⟨?_, hge, hle⟩
  have hr : -2 ^ 63 ≤ ⌊p⌋ ∧ ⌊p⌋ < 2 ^ 63 := by
    constructor <;> omega
  simp only [goInt, h0, if_true, hr, and_self]

theorem formatAndroidColor_of_product (g : AndroidGenerator) (cv : ColorValue) (p : ℚ)
    (hhex : isHexColorRef cv.Hex = true) (hlt : Float64.lt cv.Alpha 1 = true)
    (hp : Float64.mul cv.Alpha 255 = Float64.finite p) (h0 : 0 ≤ p) (h1 : p ≤ 255) :
    g.formatAndroidColor cv =
      '#'.toNat :: upperHexDigit (⌊p⌋.toNat / 16) :: upperHexDigit (⌊p⌋.toNat % 16) ::
        cv.Hex.tail := by
  obtain ⟨d, hd, _⟩ := isHexColorRef_shape cv.Hex hhex
  obtain ⟨hint, hge, hle⟩ := goInt_finite_of_byte p h0 h1
  have hdig := sprintf02X_of_lt_256 ⌊p⌋.toNat (by omega)
  have hneg : ¬ ⌊p⌋ < 0 := by omega
  have hstr : str "#" = ['#'.toNat] := by decide
  simp only [AndroidGenerator.formatAndroidColor, hlt, if_true, hp, hint, sprintf02X, hneg,
    if_false, hdig, hstr, hd, trimPrefix]
  simp

theorem sixTenths_product :
    Float64.mul (Float64.finite sixTenthsAlpha) 255 = Float64.finite 153 := by
  have hm : Float64.roundHalfEven
      ((5404319552844595 / 9007199254740992 : ℚ) * 255 / (2 : ℚ) ^ ((7 : ℤ) - 52)) =
      5383208929591296 := by
    have hf : ⌊((5404319552844595 / 9007199254740992 : ℚ) * 255 / (2 : ℚ) ^ ((7 : ℤ) - 52))⌋ =
        5383208929591295 := by
      rw [Int.floor_eq_iff]
      norm_num
    unfold Float64.roundHalfEven
    rw [hf]
    norm_num
  have h := Float64.mul_255_eval (5404319552844595 / 9007199254740992) 7 5383208929591296
    (by norm_num) (by norm_num) (by norm_num) (by norm_num) hm (by norm_num) (by norm_num)
  unfold sixTenthsAlpha
  rw [h]
  norm_num

theorem half_product :
    Float64.mul (Float64.finite (1 / 2)) 255 = Float64.finite (255 / 2) := by
  have hm : Float64.roundHalfEven (((1 / 2 : ℚ)) * 255 / (2 : ℚ) ^ ((6 : ℤ) - 52)) =
      8972014882652160 := by
    have hf : ⌊(((1 / 2 : ℚ)) * 255 / (2 : ℚ) ^ ((6 : ℤ) - 52))⌋ = 8972014882652160 := by
      rw [Int.floor_eq_iff]
      norm_num
    unfold Float64.roundHalfEven
    rw [hf]
    norm_num
  have h := Float64.mul_255_eval (1 / 2) 6 8972014882652160
    (by norm_num) (by norm_num) (by norm_num) (by norm_num) hm (by norm_num) (by norm_num)
  rw [h]
  norm_num

/-- C4 as the code has it: for a hex of the form `#RRGGBB` and a finite alpha
`q` in [0,1], alpha 1 gives the hex unchanged (7 bytes); alpha below 1 gives the
9 bytes `#`, two upper-case hexadecimal digits and the six digits of the hex
unchanged, the two digits being those of the integer part of the float64
product `alpha * 255`. That product `p` is the exact product rounded to the
nearest float64, so its integer part is floor(q * 255) or, when the product
rounds up to the next integer, floor(q * 255) + 1; it is at most 255. -/
theorem C4_formatAndroidColor_float_product (g : AndroidGenerator) (cv : ColorValue) (q : ℚ)
    (hhex : isHexColorRef cv.Hex = true) (hq : cv.Alpha = Float64.finite q)
    (h0 : 0 ≤ q) (_h1 : q ≤ 1) :
    (q = 1 →
      g.formatAndroidColor cv = cv.Hex ∧ (g.formatAndroidColor cv).length = 7) ∧
    (q < 1 →
      ∃ p : ℚ, Float64.mul cv.Alpha 255 = Float64.finite p ∧
        ((⌊q * 255⌋ : ℤ) : ℚ) ≤ p ∧ p ≤ ((⌊q * 255⌋ : ℤ) : ℚ) + 1 ∧
        (⌊p⌋ = ⌊q * 255⌋ ∨ (⌊p⌋ = ⌊q * 255⌋ + 1 ∧ p = ((⌊q * 255⌋ : ℤ) : ℚ) + 1)) ∧
        0 ≤ ⌊p⌋ ∧ ⌊p⌋ ≤ 255 ∧
        g.formatAndroidColor cv =
          '#'.toNat :: upperHexDigit (⌊p⌋.toNat / 16) ::
            upperHexDigit (⌊p⌋.toNat % 16) :: cv.Hex.tail ∧
        cv.Hex.tail.length = 6 ∧
        (g.formatAndroidColor cv).length = 9) := by
  obtain ⟨d, hd, hlen⟩ := isHexColorRef_shape cv.Hex hhex
  constructor
  · intro ha
    have hnlt : Float64.lt cv.Alpha 1 = false := by
      rw [hq, ha]
      have h1f : (1 : Float64) = Float64.finite 1 := rfl
      rw [h1f]
      simp [Float64.lt, Float64.ord]
    have hfmt : g.formatAndroidColor cv = cv.Hex := by
      simp [AndroidGenerator.formatAndroidColor, hnlt]
    refine ⟨hfmt, ?_⟩
    rw [hfmt, hd]
    simp [hlen]
  · intro ha
    have hlt : Float64.lt cv.Alpha 1 = true := by
      rw [hq]
      have h1f : (1 : Float64) = Float64.finite 1 := rfl
      rw [h1f]
      simp [Float64.lt, Float64.ord, ha]
    obtain ⟨p, hp, hlo, hhi⟩ := Float64.mul_255_bounds q h0 ha
    rw [← hq] at hp
    have hfl0 : 0 ≤ ⌊q * 255⌋ := Int.floor_nonneg.mpr (by positivity)
    have hfl : ⌊q * 255⌋ ≤ 254 := by
      have : ⌊q * 255⌋ < 255 := by
        rw [Int.floor_lt]
        push_cast
        linarith
      omega
    have hp0 : 0 ≤ p := le_trans (by exact_mod_cast hfl0) hlo
    have hp255 : p ≤ 255 := by
      have h2 : ((⌊q * 255⌋ : ℤ) : ℚ) ≤ 254 := by exact_mod_cast hfl
      linarith
    obtain ⟨_, hge, hle⟩ := goInt_finite_of_byte p hp0 hp255
    have hcases : ⌊p⌋ = ⌊q * 255⌋ ∨ (⌊p⌋ = ⌊q * 255⌋ + 1 ∧ p = ((⌊q * 255⌋ : ℤ) : ℚ) + 1) := by
      rcases lt_or_eq_of_le hhi with h | h
      · left
        rw [Int.floor_eq_iff]
        exact ⟨hlo, h⟩
      · right
        refine ⟨?_, h⟩
        rw [h]
        have h3 : ((⌊q * 255⌋ : ℤ) : ℚ) + 1 = (((⌊q * 255⌋ + 1 : ℤ)) : ℚ) := by push_cast; ring
        rw [h3, Int.floor_intCast]
    have hfmt := formatAndroidColor_of_product g cv p hhex hlt hp hp0 hp255
    refine ⟨p, hp, hlo, hhi, hcases, hge, hle, hfmt, ?_, ?_⟩
    · rw [hd]
      simpa using hlen
    · rw [hfmt, hd]
      simp [hlen]

/-- C4 as amended, at a red of alpha one half. -/
theorem C4_formatAndroidColor_float_product_witness :
    isHexColorRef halfRed.Hex = true ∧ halfRed.Alpha = Float64.finite (1 / 2) ∧
    (0 : ℚ) ≤ 1 / 2 ∧ (1 / 2 : ℚ) ≤ 1 ∧ (1 / 2 : ℚ) < 1 ∧
    sampleAndroid.formatAndroidColor halfRed = str "#7FFF0000" ∧
    ∃ p : ℚ, Float64.mul halfRed.Alpha 255 = Float64.finite p ∧
      ((⌊(1 / 2 : ℚ) * 255⌋ : ℤ) : ℚ) ≤ p ∧ p ≤ ((⌊(1 / 2 : ℚ) * 255⌋ : ℤ) : ℚ) + 1 ∧
      (⌊p⌋ = ⌊(1 / 2 : ℚ) * 255⌋ ∨
        (⌊p⌋ = ⌊(1 / 2 : ℚ) * 255⌋ + 1 ∧ p = ((⌊(1 / 2 : ℚ) * 255⌋ : ℤ) : ℚ) + 1)) ∧
      0 ≤ ⌊p⌋ ∧ ⌊p⌋ ≤ 255 ∧
      sampleAndroid.formatAndroidColor halfRed =
        '#'.toNat :: upperHexDigit (⌊p⌋.toNat / 16) ::
          upperHexDigit (⌊p⌋.toNat % 16) :: halfRed.Hex.tail ∧
      halfRed.Hex.tail.length = 6 ∧
      (sampleAndroid.formatAndroidColor halfRed).length = 9 := by
  have hfmt : sampleAndroid.formatAndroidColor halfRed = str "#7FFF0000" := by
    have h := formatAndroidColor_of_product sampleAndroid halfRed (255 / 2) (by decide)
      (by simp [halfRed, Float64.lt, Float64.ord,
        (rfl : (1 : Float64) = Float64.finite 1)]; norm_num)
      half_product (by norm_num) (by norm_num)
    have hfloor : ⌊(255 / 2 : ℚ)⌋ = 127 := by
      rw [Int.floor_eq_iff]
      norm_num
    rw [h, hfloor]
    decide
  exact ⟨by decide, rfl, by norm_num, by norm_num, by norm_num, hfmt,
    (C4_formatAndroidColor_float_product sampleAndroid halfRed (1 / 2) (by decide) rfl
      (by norm_num) (by norm_num)).2 (by norm_num)⟩

/-- C4, as stated, fails at the alpha 0.6 (the float64 nearest to it, an exact
rational of [0,1]): the floor of the exact product `alpha * 255` is 152, which
would give `#98FF0000`, and formatAndroidColor returns `#99FF0000`, because the
float64 product is rounded to 153 before `int()`. -/
theorem C4_six_tenths_is_not_the_floor :
    isHexColorRef sixTenthsRed.Hex = true ∧
    sixTenthsRed.Alpha = Float64.finite sixTenthsAlpha ∧
    0 ≤ sixTenthsAlpha ∧ sixTenthsAlpha < 1 ∧
    ⌊sixTenthsAlpha * 255⌋ = 152 ∧
    ('#'.toNat :: upperHexDigit (152 / 16) :: upperHexDigit (152 % 16) ::
      sixTenthsRed.Hex.tail) = str "#98FF0000" ∧
    sampleAndroid.formatAndroidColor sixTenthsRed = str "#99FF0000" := by
  have hfmt : sampleAndroid.formatAndroidColor sixTenthsRed = str "#99FF0000" := by
    have h := formatAndroidColor_of_product sampleAndroid sixTenthsRed 153 (by decide)
      (by simp [sixTenthsRed, sixTenthsAlpha, Float64.lt, Float64.ord,
        (rfl : (1 : Float64) = Float64.finite 1)]; norm_num)
      sixTenths_product (by norm_num) (by norm_num)
    have hfloor : ⌊(153 : ℚ)⌋ = 153 := by
      rw [Int.floor_eq_iff]
      norm_num
    rw [h, hfloor]
    decide
  have hfl : ⌊sixTenthsAlpha * 255⌋ = 152 := by
    rw [Int.floor_eq_iff]
    norm_num [sixTenthsAlpha]
  exact ⟨by decide, rfl, by norm_num [sixTenthsAlpha], by norm_num [sixTenthsAlpha], hfl,
    by decide, hfmt⟩

/-! ## Sorting of colour names -/

namespace AndroidGenerator

theorem getD_append_length (pre s : List GoString) (x d : GoString) :
    (pre ++ x :: s).getD pre.length d = x := by
  induction pre with
  | nil => rfl
  | cons a p ih => simpa using ih

theorem swapIfGreater_append (pre done t : List GoString) (x y : GoString) :
    swapIfGreater (pre ++ x :: (done ++ y :: t)) pre.length (pre.length + 1 + done.length) =
      if x > y then pre ++ y :: (done ++ x :: t) else pre ++ x :: (done ++ y :: t) := by
  have h1 : (pre ++ x :: (done ++ y :: t)).getD pre.length [] = x :=
    getD_append_length pre _ x []
  have h2 : (pre ++ x :: (done ++ y :: t)).getD (pre.length + 1 + done.length) [] = y := by
    have h3 := getD_append_length (pre ++ x :: done) t y []
    have h4 : (pre ++ x :: done).length = pre.length + 1 + done.length := by
      simp
      omega
    rw [h4] at h3
    simpa using h3
  unfold swapIfGreater
  rw [h1, h2]
  by_cases hxy : x > y
  · simp only [hxy, if_true]
    rw [List.set_append]
    simp only [lt_irrefl, if_false, Nat.sub_self, List.set_cons_zero]
    rw [List.set_append]
    have h3 : ¬ (pre.length + 1 + done.length < pre.length) := by omega
    have h4 : pre.length + 1 + done.length - pre.length = done.length + 1 := by omega
    simp only [h3, if_false, h4, List.set_cons_succ]
    rw [List.set_append]
    simp
  · simp only [hxy, if_false]

theorem foldl_swapIfGreater (todo : List GoString) :
    ∀ (pre done : List GoString) (x : GoString), (∀ b ∈ done, x ≤ b) →
      ∃ m r, (List.range' (pre.length + 1 + done.length) todo.length).foldl
          (fun ns j => swapIfGreater ns pre.length j) (pre ++ x :: (done ++ todo)) =
          pre ++ m :: r ∧
        List.Perm (m :: r) (x :: (done ++ todo)) ∧ ∀ b ∈ r, m ≤ b := by
  induction todo with
  | nil =>
    intro pre done x hx
    exact ⟨x, done, by simp, by simp, hx⟩
  | cons y t ih =>
    intro pre done x hx
    simp only [List.length_cons, List.range'_succ, List.foldl_cons]
    rw [swapIfGreater_append]
    by_cases hxy : x > y
    · simp only [hxy, if_true]
      have hinv : ∀ b ∈ done ++ [x], y ≤ b := by
        intro b hb
        rcases List.mem_append.mp hb with hb | hb
        · exact le_trans (le_of_lt hxy) (hx b hb)
        · rw [List.mem_singleton.mp hb]
          exact le_of_lt hxy
      obtain ⟨m, r, heq, hperm, hmin⟩ := ih pre (done ++ [x]) y hinv
      have hlen : pre.length + 1 + (done ++ [x]).length = pre.length + 1 + done.length + 1 := by
        simp; omega
      rw [hlen] at heq
      simp only [List.append_assoc, List.singleton_append] at heq hperm
      refine ⟨m, r, heq, hperm.trans ?_, hmin⟩
      have p1 : List.Perm (y :: (done ++ x :: t)) (y :: x :: (done ++ t)) :=
        List.Perm.cons y List.perm_middle
      have p2 : List.Perm (x :: (done ++ y :: t)) (x :: y :: (done ++ t)) :=
        List.Perm.cons x List.perm_middle
      exact p1.trans ((List.Perm.swap x y _).trans p2.symm)
    · simp only [hxy, if_false]
      have hle : x ≤ y := not_lt.mp hxy
      have hinv : ∀ b ∈ done ++ [y], x ≤ b := by
        intro b hb
        rcases List.mem_append.mp hb with hb | hb
        · exact hx b hb
        · rw [List.mem_singleton.mp hb]
          exact hle
      obtain ⟨m, r, heq, hperm, hmin⟩ := ih pre (done ++ [y]) x hinv
      have hlen : pre.length + 1 + (done ++ [y]).length = pre.length + 1 + done.length + 1 := by
        simp; omega
      rw [hlen] at heq
      simp only [List.append_assoc, List.singleton_append] at heq hperm
      exact ⟨m, r, heq, hperm, hmin⟩

theorem sortInner_append (pre rest : List GoString) (x : GoString) :
    ∃ m r, sortInner (pre ++ x :: rest) pre.length = pre ++ m :: r ∧
      List.Perm (m :: r) (x :: rest) ∧ ∀ b ∈ r, m ≤ b := by
  have h := foldl_swapIfGreater rest pre [] x (by simp)
  have hlen : (pre ++ x :: rest).length - (pre.length + 1) = rest.length := by
    simp
    omega
  unfold sortInner
  rw [hlen]
  simpa using h

theorem foldl_sortInner (n : Nat) :
    ∀ (pre rest : List GoString), rest.length = n → List.Sorted (· ≤ ·) pre →
      (∀ a ∈ pre, ∀ b ∈ rest, a ≤ b) →
      List.Sorted (· ≤ ·)
          ((List.range' pre.length (rest.length - 1)).foldl sortInner (pre ++ rest)) ∧
        List.Perm ((List.range' pre.length (rest.length - 1)).foldl sortInner (pre ++ rest))
          (pre ++ rest) := by
  induction n with
  | zero =>
    intro pre rest hn hs _
    have : rest = [] := List.length_eq_zero.mp hn
    subst this
    simpa using hs
  | succ k ih =>
    intro pre rest hn hs hle
    cases rest with
    | nil => simp at hn
    | cons x t =>
      cases t with
      | nil =>
        simp only [List.length_singleton, Nat.sub_self, List.range'_zero, List.foldl_nil]
        refine ⟨?_, List.Perm.refl _⟩
        exact List.pairwise_append.mpr ⟨hs, List.pairwise_singleton _ _, hle⟩
      | cons y u =>
        obtain ⟨m, r, heq, hperm, hmin⟩ := sortInner_append pre (y :: u) x
        have hrlen : r.length = k := by
          have h1 := hperm.length_eq
          simp only [List.length_cons] at h1 hn
          omega
        have hmem : ∀ b, b ∈ m :: r ↔ b ∈ x :: y :: u := fun b => hperm.mem_iff
        have hs2 : List.Sorted (· ≤ ·) (pre ++ [m]) := by
          refine List.pairwise_append.mpr ⟨hs, List.pairwise_singleton _ _, ?_⟩
          intro a ha b hb
          rw [List.mem_singleton.mp hb]
          exact hle a ha m ((hmem m).mp (List.mem_cons_self _ _))
        have hle2 : ∀ a ∈ pre ++ [m], ∀ b ∈ r, a ≤ b := by
          intro a ha b hb
          rcases List.mem_append.mp ha with ha | ha
          · exact hle a ha b ((hmem b).mp (List.mem_cons_of_mem _ hb))
          · rw [List.mem_singleton.mp ha]
            exact hmin b hb
        have hrec := ih (pre ++ [m]) r hrlen hs2 hle2
        have hcnt : (x :: y :: u).length - 1 = (r.length - 1) + 1 := by
          simp only [List.length_cons] at hn ⊢
          omega
        rw [hcnt, List.range'_succ, List.foldl_cons, heq]
        have hpl : (pre ++ [m]).length = pre.length + 1 := by simp
        rw [hpl] at hrec
        have happ : pre ++ [m] ++ r = pre ++ m :: r := by simp
        rw [happ] at hrec
        refine ⟨hrec.1, hrec.2.trans ?_⟩
        exact List.Perm.append_left pre hperm

theorem sortColorNames_sorted_perm (g : AndroidGenerator) (m : GoMap GoString GoString) :
    List.Sorted (· ≤ ·) (g.sortColorNames m) ∧ List.Perm (g.sortColorNames m) m.keys := by
  have h := foldl_sortInner m.keys.length [] m.keys rfl List.sorted_nil (by simp)
  simpa [sortColorNames, List.range_eq_range'] using h

end AndroidGenerator

theorem GoMap_get?_eq_of_perm (m1 m2 : GoMap GoString GoString) (hk : m1.keys.Nodup)
    (hperm : List.Perm m1 m2) (k : GoString) : m1.get? k = m2.get? k := by
  have hkeys : List.Perm m1.keys m2.keys := hperm.map Prod.fst
  have hk2 : m2.keys.Nodup := hkeys.nodup_iff.mp hk
  cases h1 : GoMap.get? m1 k with
  | some v =>
    have hm := GoMap.mem_of_get?_eq_some m1 k v h1
    exact (GoMap.get?_eq_some_of_mem m2 hk2 k v (hperm.mem_iff.mp hm)).symm
  | none =>
    have hnot : k ∉ m2.keys := by
      intro hin
      obtain ⟨v, hv⟩ := (GoMap.mem_keys_iff_get? m1 k).mp (hkeys.mem_iff.mpr hin)
      rw [h1] at hv
      cases hv
    exact (GoMap.get?_eq_none_of_not_mem_keys m2 k hnot).symm

/-- C5: whatever the order in which the keys of a map are enumerated,
sortColorNames returns the same list; it holds every key exactly once, in
strictly ascending byte-wise lexicographic order; so the generated
`colors.xml` does not depend on the iteration order. -/
theorem C5_sortColorNames_sorted_and_order_independent (g : AndroidGenerator)
    (m1 m2 : GoMap GoString GoString) (hk : m1.keys.Nodup) (hperm : List.Perm m1 m2) :
    g.sortColorNames m1 = g.sortColorNames m2 ∧
    (∀ k, k ∈ g.sortColorNames m1 ↔ k ∈ m1.keys) ∧
    List.Perm (g.sortColorNames m1) m1.keys ∧
    (g.sortColorNames m1).Nodup ∧
    (g.sortColorNames m1).length = m1.length ∧
    List.Sorted (· < ·) (g.sortColorNames m1) ∧
    (∀ dir, g.generateColorsXML dir m1 = g.generateColorsXML dir m2) := by
  obtain ⟨hs1, hp1⟩ := g.sortColorNames_sorted_perm m1
  obtain ⟨hs2, hp2⟩ := g.sortColorNames_sorted_perm m2
  have hkeys : List.Perm m1.keys m2.keys := hperm.map Prod.fst
  have hnd : (g.sortColorNames m1).Nodup := hp1.nodup_iff.mpr hk
  have heq : g.sortColorNames m1 = g.sortColorNames m2 :=
    List.eq_of_perm_of_sorted (hp1.trans (hkeys.trans hp2.symm)) hs1 hs2
  refine ⟨heq, fun k => hp1.mem_iff, hp1, hnd, ?_, hs1.lt_of_le hnd, ?_⟩
  · rw [hp1.length_eq]
    simp [GoMap.keys]
  · intro dir
    have hget2 : ∀ k, GoMap.get? m1 k = GoMap.get? m2 k := GoMap_get?_eq_of_perm m1 m2 hk hperm
    simp only [AndroidGenerator.generateColorsXML, heq, hget2]

/-- C5, at a two-entry map enumerated in both orders. -/
theorem C5_sortColorNames_sorted_and_order_independent_witness :
    sampleColorMap.keys.Nodup ∧ List.Perm sampleColorMap sampleColorMap.reverse ∧
    sampleAndroid.sortColorNames sampleColorMap =
      sampleAndroid.sortColorNames sampleColorMap.reverse ∧
    sampleAndroid.sortColorNames sampleColorMap = [str "accent", str "brand"] :=
  ⟨by decide, (List.reverse_perm _).symm,
   (C5_sortColorNames_sorted_and_order_independent sampleAndroid sampleColorMap
      sampleColorMap.reverse (by decide) (List.reverse_perm _).symm).1,
   by decide⟩

/-! ## The iOS colour emitter (`ios.go`) -/

/-- What buildColorSet returns, with Go's `!=` on the alphas (true for NaN
against itself): Colors is, in this order and nothing else, the universal entry
without appearances carrying GetDefault, iff the hex of GetDefault is non-empty;
the luminosity=light entry carrying GetLight, iff its hex is non-empty and `!=`
tells it from GetDefault in hex or alpha; the luminosity=dark entry carrying
GetDark, under the same test. -/
theorem buildColorSet_Colors (g : IOSGenerator) (lib : FmtCalls) (c : ColorDefinition) :
    (g.buildColorSet lib c).Colors =
      (if c.GetDefault.Hex ≠ [] then
        [{ Color := some (g.buildColorValue lib c.GetDefault),
           Appearances := [],
           Idiom := str "universal" }]
       else []) ++
      (if c.GetLight.Hex ≠ [] ∧
          (c.GetLight.Hex ≠ c.GetDefault.Hex ∨
            Float64.ne c.GetLight.Alpha c.GetDefault.Alpha = true) then
        [{ Color := some (g.buildColorValue lib c.GetLight),
           Appearances := [{ Appearance := str "luminosity", Value := str "light" }],
           Idiom := str "universal" }]
       else []) ++
      (if c.GetDark.Hex ≠ [] ∧
          (c.GetDark.Hex ≠ c.GetDefault.Hex ∨
            Float64.ne c.GetDark.Alpha c.GetDefault.Alpha = true) then
        [{ Color := some (g.buildColorValue lib c.GetDark),
           Appearances := [{ Appearance := str "luminosity", Value := str "dark" }],
           Idiom := str "universal" }]
       else []) := by
  unfold IOSGenerator.buildColorSet
  by_cases h1 : c.GetDefault.Hex = [] <;>
  by_cases h2 : c.GetLight.Hex = [] <;>
  by_cases h3 : c.GetDark.Hex = [] <;>
  by_cases h4 : c.GetLight.Hex = c.GetDefault.Hex <;>
  by_cases h5 : Float64.ne c.GetLight.Alpha c.GetDefault.Alpha = true <;>
  by_cases h6 : c.GetDark.Hex = c.GetDefault.Hex <;>
  by_cases h7 : Float64.ne c.GetDark.Alpha c.GetDefault.Alpha = true <;>
  simp_all

/-- C6 fails on the code at the Simple red of alpha NaN: its default, light and
dark values are one and the same value, yet buildColorSet returns three entries,
the universal one and a light and a dark appearance, where the claim has
exactly one entry for a Simple definition. -/
theorem C6_nan_alpha_gets_three_entries :
    nanEntry.IsSimple = true ∧ nanEntry.IsGradient = false ∧
    nanEntry.GetLight = nanEntry.GetDefault ∧ nanEntry.GetDark = nanEntry.GetDefault ∧
    (sampleIOS.buildColorSet sampleFmt nanEntry).Colors.length = 3 ∧
    (sampleIOS.buildColorSet sampleFmt nanEntry).Colors.map iOSColor.Appearances =
      [[], [{ Appearance := str "luminosity", Value := str "light" }],
       [{ Appearance := str "luminosity", Value := str "dark" }]] := by
  refine ⟨by decide, by decide, by decide, by decide, ?_, ?_⟩
  · rw [buildColorSet_Colors]
    simp [nanEntry, GetDefault, GetLight, GetDark, IsSimple, Float64.ne, Float64.eq, Float64.ord,
      str]
  · rw [buildColorSet_Colors]
    simp [nanEntry, GetDefault, GetLight, GetDark, IsSimple, Float64.ne, Float64.eq, Float64.ord,
      str]

/-! ## Validation (`parser.go`) -/

theorem isHexByte_eq_contains (c : Nat) :
    isHexByte c = (str "0123456789abcdefABCDEF").contains c := by
  by_cases h : c < 128
  · revert c
    decide
  · have h1 : isHexByte c = false := by
      simp [isHexByte]
      omega
    have h2 : (str "0123456789abcdefABCDEF").contains c = false := by
      simp [str]
      omega
    rw [h1, h2]

theorem isValidHex_eq_ref (hex : GoString) : isValidHex hex = isHexColorRef hex := by
  by_cases hlen : hex.length = 7
  · match hex, hlen with
    | [a, b1, b2, b3, b4, b5, b6], _ =>
      simp [isValidHex, isHexColorRef, List.range', isHexByte_eq_contains]
      by_cases ha : a = 35 <;> simp [ha]
  · have h1 : isValidHex hex = false := by
      simp [isValidHex, hlen]
    have h2 : isHexColorRef hex = false := by
      cases hex with
      | nil => rfl
      | cons a d =>
        have : d.length ≠ 6 := by
          intro hd
          apply hlen
          simp [hd]
        simp [isHexColorRef, this]
    rw [h1, h2]

theorem variant_check_isSome (v : ColorValue) (e1 e2 : ColorError) :
    ((if (!isValidHex v.Hex) = true then some e1
      else if (Float64.lt v.Alpha 0 || Float64.gt v.Alpha 1) = true then some e2
      else none).isSome = true) ↔
    (isHexColorRef v.Hex = false ∨ Float64.lt v.Alpha 0 = true ∨ Float64.gt v.Alpha 1 = true) := by
  rw [isValidHex_eq_ref]
  by_cases h1 : isHexColorRef v.Hex = true
  · by_cases h2 : Float64.lt v.Alpha 0 = true
    · simp [h1, h2]
    · by_cases h3 : Float64.gt v.Alpha 1 = true
      · simp [h1, h3]
      · simp [h1, h2, h3]
  · have h1f : isHexColorRef v.Hex = false := by simpa using h1
    simp [h1f]

theorem validateColor_some_isSome (name : GoString) (c : ColorDefinition) :
    (validateColor name (some c)).isSome = true ↔
      c.IsGradient = false ∧
      ((c.IsSimple = true ∧ (isHexColorRef c.Hex = false ∨ Float64.lt c.Alpha 0 = true ∨ Float64.gt c.Alpha 1 = true)) ∨
       (c.IsSimple = false ∧
          ((c.Default = none ∧ c.Light = none ∧ c.Dark = none) ∨
           ∃ v, (c.Default = some v ∨ c.Light = some v ∨ c.Dark = some v) ∧
              (isHexColorRef v.Hex = false ∨ Float64.lt v.Alpha 0 = true ∨ Float64.gt v.Alpha 1 = true)))) := by
  unfold validateColor
  by_cases hg : c.IsGradient = true
  · simp [hg]
  have hgf : c.IsGradient = false := by simpa using hg
  by_cases hs : c.IsSimple = true
  · have h := variant_check_isSome { Hex := c.Hex, Alpha := c.Alpha }
      ColorError.invalidHex ColorError.alphaRange
    simp only [hgf, hs, Bool.false_eq_true, if_false, if_true, true_and, h, Bool.true_eq_false,
      false_and, or_false]
  have hsf : c.IsSimple = false := by simpa using hs
  simp only [hgf, hsf, Bool.false_eq_true, if_false, true_and, Bool.true_eq_false, false_and,
    false_or]
  cases hD : c.Default with
  | none =>
    cases hL : c.Light with
    | none =>
      cases hK : c.Dark with
      | none => simp
      | some k =>
        have h := variant_check_isSome k ColorError.darkHex ColorError.darkAlpha
        simp only [Option.isNone_none, Option.isNone_some, Bool.and_false, Bool.false_eq_true,
          if_false, h]
        simp
    | some l =>
      have hl := variant_check_isSome l ColorError.lightHex ColorError.lightAlpha
      cases hK : c.Dark with
      | none =>
        simp only [Option.isNone_none, Option.isNone_some, Bool.and_false, Bool.false_and,
          Bool.and_true, Bool.false_eq_true, if_false]
        by_cases hbl : isHexColorRef l.Hex = false ∨ Float64.lt l.Alpha 0 = true ∨ Float64.gt l.Alpha 1 = true
        · have h1 := hl.mpr hbl
          obtain ⟨e, he⟩ := Option.isSome_iff_exists.mp h1
          simp only [he]
          simp [hbl]
        · have h1 : ¬ _ := fun hh => hbl (hl.mp hh)
          have h2 := Option.not_isSome_iff_eq_none.mp h1
          simp only [h2]
          simp [hbl]
      | some k =>
        have hk := variant_check_isSome k ColorError.darkHex ColorError.darkAlpha
        simp only [Option.isNone_none, Option.isNone_some, Bool.and_false, Bool.false_and,
          Bool.and_true, Bool.false_eq_true, if_false]
        by_cases hbl : isHexColorRef l.Hex = false ∨ Float64.lt l.Alpha 0 = true ∨ Float64.gt l.Alpha 1 = true
        · have h1 := hl.mpr hbl
          obtain ⟨e, he⟩ := Option.isSome_iff_exists.mp h1
          simp only [he]
          simp only [Option.isSome_some, true_iff]
          exact Or.inr ⟨l, Or.inr (Or.inl rfl), hbl⟩
        · have h1 : ¬ _ := fun hh => hbl (hl.mp hh)
          have h2 := Option.not_isSome_iff_eq_none.mp h1
          simp only [h2, hk]
          constructor
          · intro hbk
            exact Or.inr ⟨k, Or.inr (Or.inr rfl), hbk⟩
          · rintro (⟨_, h, _⟩ | ⟨v, hv, hbv⟩)
            · cases h
            · rcases hv with hv | hv | hv
              · cases hv
              · cases hv
                exact absurd hbv hbl
              · cases hv
                exact hbv
  | some d =>
    have hd := variant_check_isSome d ColorError.defaultHex ColorError.defaultAlpha
    simp only [Option.isNone_some, Bool.false_and, Bool.false_eq_true, if_false]
    by_cases hbd : isHexColorRef d.Hex = false ∨ Float64.lt d.Alpha 0 = true ∨ Float64.gt d.Alpha 1 = true
    · have h1 := hd.mpr hbd
      obtain ⟨e, he⟩ := Option.isSome_iff_exists.mp h1
      simp only [he]
      simp only [Option.isSome_some, true_iff]
      exact Or.inr ⟨d, Or.inl rfl, hbd⟩
    · have h1 : ¬ _ := fun hh => hbd (hd.mp hh)
      have h2 := Option.not_isSome_iff_eq_none.mp h1
      simp only [h2]
      cases hL : c.Light with
      | none =>
        cases hK : c.Dark with
        | none =>
          simp only [Option.isSome_none, Bool.false_eq_true, false_iff]
          rintro (⟨h, _⟩ | ⟨v, hv, hbv⟩)
          · cases h
          · rcases hv with hv | hv | hv
            · cases hv
              exact hbd hbv
            · cases hv
            · cases hv
        | some k =>
          have hk := variant_check_isSome k ColorError.darkHex ColorError.darkAlpha
          simp only [hk]
          constructor
          · intro hbk
            exact Or.inr ⟨k, Or.inr (Or.inr rfl), hbk⟩
          · rintro (⟨h, _⟩ | ⟨v, hv, hbv⟩)
            · cases h
            · rcases hv with hv | hv | hv
              · cases hv
                exact absurd hbv hbd
              · cases hv
              · cases hv
                exact hbv
      | some l =>
        have hl := variant_check_isSome l ColorError.lightHex ColorError.lightAlpha
        by_cases hbl : isHexColorRef l.Hex = false ∨ Float64.lt l.Alpha 0 = true ∨ Float64.gt l.Alpha 1 = true
        · have h1 := hl.mpr hbl
          obtain ⟨e, he⟩ := Option.isSome_iff_exists.mp h1
          simp only [he]
          simp only [Option.isSome_some, true_iff]
          exact Or.inr ⟨l, Or.inr (Or.inl rfl), hbl⟩
        · have h3 : ¬ _ := fun hh => hbl (hl.mp hh)
          have h4 := Option.not_isSome_iff_eq_none.mp h3
          simp only [h4]
          cases hK : c.Dark with
          | none =>
            simp only [Option.isSome_none, Bool.false_eq_true, false_iff]
            rintro (⟨h, _⟩ | ⟨v, hv, hbv⟩)
            · cases h
            · rcases hv with hv | hv | hv
              · cases hv
                exact hbd hbv
              · cases hv
                exact hbl hbv
              · cases hv
          | some k =>
            have hk := variant_check_isSome k ColorError.darkHex ColorError.darkAlpha
            simp only [hk]
            constructor
            · intro hbk
              exact Or.inr ⟨k, Or.inr (Or.inr rfl), hbk⟩
            · rintro (⟨h, _⟩ | ⟨v, hv, hbv⟩)
              · cases h
              · rcases hv with hv | hv | hv
                · cases hv
                  exact absurd hbv hbd
                · cases hv
                  exact absurd hbv hbl
                · cases hv
                  exact hbv

/-- What validateColor does, with Go's `<` and `>` on the alphas (both false
for NaN): it returns an error exactly when the definition is nil, or it is not a
gradient and either it is Simple with an invalid hex or an alpha below 0 or
above 1, or it is not Simple and has none of Default, Light, Dark or has a
variant with an invalid hex or an alpha below 0 or above 1. A gradient-tagged
definition is accepted, and the top-level hex of a definition that is not Simple
does not change the result. -/
theorem validateColor_error_iff (name : GoString) (color : Option ColorDefinition) :
    ((validateColor name color).isSome = true ↔
      (color = none ∨
       ∃ c, color = some c ∧ c.IsGradient = false ∧
        ((c.IsSimple = true ∧ (isHexColorRef c.Hex = false ∨ Float64.lt c.Alpha 0 = true ∨ Float64.gt c.Alpha 1 = true)) ∨
         (c.IsSimple = false ∧
          ((c.Default = none ∧ c.Light = none ∧ c.Dark = none) ∨
           ∃ v, (c.Default = some v ∨ c.Light = some v ∨ c.Dark = some v) ∧
              (isHexColorRef v.Hex = false ∨ Float64.lt v.Alpha 0 = true ∨ Float64.gt v.Alpha 1 = true)))))) ∧
    (∀ c : ColorDefinition, c.IsGradient = true → validateColor name (some c) = none) ∧
    (∀ (c : ColorDefinition) (h : GoString), c.IsSimple = false →
      ({ c with Hex := h } : ColorDefinition).IsSimple = false →
      validateColor name (some { c with Hex := h }) = validateColor name (some c)) := by
  refine ⟨?_, ?_, ?_⟩
  · cases color with
    | none => simp [validateColor]
    | some c =>
      rw [validateColor_some_isSome]
      constructor
      · intro h
        exact Or.inr ⟨c, rfl, h⟩
      · rintro (h | ⟨c2, hc, h⟩)
        · cases h
        · cases hc
          exact h
  · intro c hg
    simp [validateColor, hg]
  · intro c h hs hs2
    have hg : ({ c with Hex := h } : ColorDefinition).IsGradient = c.IsGradient := rfl
    unfold validateColor
    simp only [hs, hs2, hg, Bool.false_eq_true, if_false]

/-- C8 fails on the code at the Simple red `#FF0000` of alpha NaN: the hex is
valid, the alpha is no number of [0,1], and validateColor returns no error,
because `alpha < 0` and `alpha > 1` are both false for NaN. -/
theorem C8_nan_alpha_is_accepted :
    nanEntry.IsGradient = false ∧ nanEntry.IsSimple = true ∧
    isHexColorRef nanEntry.Hex = true ∧
    nanEntry.Alpha = Float64.nan ∧
    (¬ ∃ q : ℚ, nanEntry.Alpha = Float64.finite q ∧ 0 ≤ q ∧ q ≤ 1) ∧
    nanEntry.Alpha ≠ Float64.negZero ∧
    Float64.lt nanEntry.Alpha 0 = false ∧ Float64.gt nanEntry.Alpha 1 = false ∧
    validateColor (str "plain") (some nanEntry) = none := by
  have hvalid : isValidHex (str "#FF0000") = true := by decide
  refine ⟨by decide, by decide, by decide, rfl, ?_, by decide, by decide, by decide, ?_⟩
  · rintro ⟨q, hq, _⟩
    cases hq
  · have hne : ¬ str "#FF0000" = [] := by decide
    simp [validateColor, nanEntry, IsGradient, IsSimple, hvalid, hne, Float64.lt, Float64.gt,
      Float64.ord]

/-! ## Usable values in every theme -/

theorem isHexColorRef_ne_nil (hex : GoString) (h : isHexColorRef hex = true) : hex ≠ [] := by
  intro hnil
  rw [hnil] at h
  simp [isHexColorRef] at h

/-- C9, as the code has it: a definition that is not a gradient and that
validateColor accepts resolves GetDark to a non-empty hex; it resolves
GetDefault and GetLight to a non-empty hex when it is Simple or sets Default or
Light. -/
theorem C9_accepted_definition_resolves (name : GoString) (c : ColorDefinition)
    (hg : c.IsGradient = false) (hv : validateColor name (some c) = none) :
    c.GetDark.Hex ≠ [] ∧
    ((c.IsSimple = true ∨ c.Default ≠ none ∨ c.Light ≠ none) →
      c.GetDefault.Hex ≠ [] ∧ c.GetLight.Hex ≠ []) := by
  have hnot : ¬ (validateColor name (some c)).isSome = true := by
    rw [hv]
    simp
  rw [validateColor_some_isSome] at hnot
  simp only [hg, true_and, not_or, not_and] at hnot
  obtain ⟨hsimple, hthemed⟩ := hnot
  by_cases hs : c.IsSimple = true
  · obtain ⟨⟨hhex, _, _⟩, hd, hl, hk⟩ := simple_resolvers c hs
    rw [hd, hl, hk]
    exact ⟨hhex, fun _ => ⟨hhex, hhex⟩⟩
  · have hsf : c.IsSimple = false := by simpa using hs
    obtain ⟨hsome, hall⟩ := hthemed hsf
    have hgood : ∀ v, (c.Default = some v ∨ c.Light = some v ∨ c.Dark = some v) →
        v.Hex ≠ [] := by
      intro v hvv
      have h1 : ¬ isHexColorRef v.Hex = false := fun hh => hall ⟨v, hvv, Or.inl hh⟩
      exact isHexColorRef_ne_nil v.Hex (by simpa using h1)
    have hdef : c.GetDefault = ((c.Default <|> c.Light).getD { Hex := [], Alpha := 0 }) := by
      unfold GetDefault
      rw [hsf]
      cases c.Default <;> cases c.Light <;> rfl
    have hlight : c.GetLight = (c.Light.getD c.GetDefault) := by
      unfold GetLight
      rw [hsf]
      cases c.Light <;> rfl
    have hdark : c.GetDark = (c.Dark.getD c.GetDefault) := by
      unfold GetDark
      rw [hsf]
      cases c.Dark <;> rfl
    rw [hdark, hlight, hdef]
    cases hD : c.Default with
    | some d =>
      have h1 := hgood d (Or.inl hD)
      constructor
      · cases hK : c.Dark with
        | some k => exact hgood k (Or.inr (Or.inr hK))
        | none => simpa using h1
      · intro _
        cases hL : c.Light with
        | some l => exact ⟨by simpa using h1, hgood l (Or.inr (Or.inl hL))⟩
        | none => exact ⟨by simpa using h1, by simpa using h1⟩
    | none =>
      cases hL : c.Light with
      | some l =>
        have h1 := hgood l (Or.inr (Or.inl hL))
        constructor
        · cases hK : c.Dark with
          | some k => exact hgood k (Or.inr (Or.inr hK))
          | none => simpa using h1
        · intro _
          exact ⟨by simpa using h1, by simpa using h1⟩
      | none =>
        cases hK : c.Dark with
        | some k =>
          refine ⟨hgood k (Or.inr (Or.inr hK)), ?_⟩
          intro h
          rcases h with h | h | h
          · exact absurd h hs
          · exact absurd rfl h
          · exact absurd rfl h
        | none => exact absurd hK (hsome hD hL)

theorem alpha_one_in_range : Float64.lt 1 0 = false ∧ Float64.gt 1 1 = false := by
  have h1 : (1 : Float64) = Float64.finite 1 := rfl
  have h0 : (0 : Float64) = Float64.finite 0 := rfl
  rw [h1, h0]
  simp [Float64.lt, Float64.gt, Float64.ord]

theorem validateColor_darkOnlyEntry : validateColor (str "shadow") (some darkOnlyEntry) = none := by
  have h1 : isValidHex (str "#000000") = true := by decide
  obtain ⟨ha, hb⟩ := alpha_one_in_range
  simp [validateColor, darkOnlyEntry, IsGradient, IsSimple, h1, ha, hb]

theorem validateColor_brandEntry : validateColor (str "brand") (some brandEntry) = none := by
  have h1 : isValidHex (str "#000000") = true := by decide
  have h2 : isValidHex (str "#FFFFFF") = true := by decide
  obtain ⟨ha, hb⟩ := alpha_one_in_range
  simp [validateColor, brandEntry, IsGradient, IsSimple, h1, h2, ha, hb]

/-- C9, as stated, fails at the definition with only `dark: #000000`:
validateColor accepts it, and GetDefault and GetLight return the zero value,
whose hex is empty. -/
theorem C9_dark_only_resolves_to_empty :
    darkOnlyEntry.IsGradient = false ∧
    validateColor (str "shadow") (some darkOnlyEntry) = none ∧
    darkOnlyEntry.GetDefault.Hex = [] ∧
    darkOnlyEntry.GetLight.Hex = [] :=
  ⟨by decide, validateColor_darkOnlyEntry, by decide, by decide⟩

/-- C9 as amended, at the entry with default black and dark white. -/
theorem C9_accepted_definition_resolves_witness :
    brandEntry.IsGradient = false ∧
    validateColor (str "brand") (some brandEntry) = none ∧
    brandEntry.GetDark.Hex ≠ [] :=
  ⟨by decide, validateColor_brandEntry,
   (C9_accepted_definition_resolves (str "brand") brandEntry (by decide)
      validateColor_brandEntry).1⟩

end color

namespace image

/-! ## The density mapper (`android.go`) -/

theorem androidDensity_inj : ∀ i, i < 5 → ∀ j, j < 5 →
    (androidDensity i).Name = (androidDensity j).Name → i = j := by
  decide

theorem androidDensity_eq_iff (i j : Nat) (hi : i < 5) (hj : j < 5) :
    androidDensity i = androidDensity j ↔ i = j := by
  constructor
  · intro h
    exact androidDensity_inj i hi j hj (congrArg AndroidDensity.Name h)
  · intro h
    rw [h]

theorem androidDensity_names :
    androidDensity 0 = mdpi ∧ androidDensity 1 = hdpi ∧ androidDensity 2 = xhdpi ∧
    androidDensity 3 = xxhdpi ∧ androidDensity 4 = xxxhdpi :=
  ⟨rfl, rfl, rfl, rfl, rfl⟩

/-- C10: with the 2x file present, hdpi and xhdpi map to the 2x file; mdpi maps
to the 1x file if it is present and to the 2x file otherwise, also when 3x is
present; xxhdpi and xxxhdpi map to the 3x file if it is present and are
unassigned otherwise. -/
theorem C10_mapping_with_2x (g : AndroidImageGenerator) (info : ImageInfo)
    (h2 : info.Has2x = true) :
    (g.getAndroidMapping info).get? hdpi =
      some (info.Name ++ str "@2x" ++ info.Extension) ∧
    (g.getAndroidMapping info).get? xhdpi =
      some (info.Name ++ str "@2x" ++ info.Extension) ∧
    (g.getAndroidMapping info).get? mdpi =
      (if info.Has1x = true then some (info.Name ++ info.Extension)
       else some (info.Name ++ str "@2x" ++ info.Extension)) ∧
    (g.getAndroidMapping info).get? xxhdpi =
      (if info.Has3x = true then some (info.Name ++ str "@3x" ++ info.Extension) else none) ∧
    (g.getAndroidMapping info).get? xxxhdpi =
      (if info.Has3x = true then some (info.Name ++ str "@3x" ++ info.Extension) else none) ∧
    (info.Has1x = false → info.Has3x = false →
      (g.getAndroidMapping info).keys = [mdpi, hdpi, xhdpi]) ∧
    (info.Has1x = true → info.Has3x = false →
      (g.getAndroidMapping info).get? mdpi = some (info.Name ++ info.Extension) ∧
      (g.getAndroidMapping info).keys = [mdpi, hdpi, xhdpi]) := by
  obtain ⟨e0, e1, e2, e3, e4⟩ := androidDensity_names
  rw [← e0, ← e1, ← e2, ← e3, ← e4]
  have n01 : ¬ androidDensity 0 = androidDensity 1 := by
    rw [androidDensity_eq_iff 0 1 (by decide) (by decide)]; decide
  have n02 : ¬ androidDensity 0 = androidDensity 2 := by
    rw [androidDensity_eq_iff 0 2 (by decide) (by decide)]; decide
  have n03 : ¬ androidDensity 0 = androidDensity 3 := by
    rw [androidDensity_eq_iff 0 3 (by decide) (by decide)]; decide
  have n04 : ¬ androidDensity 0 = androidDensity 4 := by
    rw [androidDensity_eq_iff 0 4 (by decide) (by decide)]; decide
  have n12 : ¬ androidDensity 1 = androidDensity 2 := by
    rw [androidDensity_eq_iff 1 2 (by decide) (by decide)]; decide
  have n13 : ¬ androidDensity 1 = androidDensity 3 := by
    rw [androidDensity_eq_iff 1 3 (by decide) (by decide)]; decide
  have n14 : ¬ androidDensity 1 = androidDensity 4 := by
    rw [androidDensity_eq_iff 1 4 (by decide) (by decide)]; decide
  have n23 : ¬ androidDensity 2 = androidDensity 3 := by
    rw [androidDensity_eq_iff 2 3 (by decide) (by decide)]; decide
  have n24 : ¬ androidDensity 2 = androidDensity 4 := by
    rw [androidDensity_eq_iff 2 4 (by decide) (by decide)]; decide
  have n34 : ¬ androidDensity 3 = androidDensity 4 := by
    rw [androidDensity_eq_iff 3 4 (by decide) (by decide)]; decide
  have m10 : ¬ androidDensity 1 = androidDensity 0 := fun h => n01 h.symm
  have m20 : ¬ androidDensity 2 = androidDensity 0 := fun h => n02 h.symm
  have m30 : ¬ androidDensity 3 = androidDensity 0 := fun h => n03 h.symm
  have m40 : ¬ androidDensity 4 = androidDensity 0 := fun h => n04 h.symm
  have m21 : ¬ androidDensity 2 = androidDensity 1 := fun h => n12 h.symm
  have m31 : ¬ androidDensity 3 = androidDensity 1 := fun h => n13 h.symm
  have m41 : ¬ androidDensity 4 = androidDensity 1 := fun h => n14 h.symm
  have m32 : ¬ androidDensity 3 = androidDensity 2 := fun h => n23 h.symm
  have m42 : ¬ androidDensity 4 = androidDensity 2 := fun h => n24 h.symm
  have m43 : ¬ androidDensity 4 = androidDensity 3 := fun h => n34 h.symm
  unfold AndroidImageGenerator.getAndroidMapping
  cases h1 : info.Has1x <;> cases h3 : info.Has3x <;>
    simp [h2, GoMap.set, GoMap.get?, GoMap.keys, n01, n02, n03, n04, n12, n13, n14, n23, n24,
      n34, m10, m20, m30, m40, m21, m31, m41, m32, m42, m43]

/-- C10, at an image with its 1x and 2x files: mdpi takes the 1x file. -/
theorem C10_mapping_with_2x_witness :
    iconInfo.Has2x = true ∧
    (sampleImageGenerator.getAndroidMapping iconInfo).get? mdpi = some (str "icon.png") ∧
    (sampleImageGenerator.getAndroidMapping iconInfo).get? hdpi = some (str "icon@2x.png") :=
  ⟨rfl,
   ((C10_mapping_with_2x sampleImageGenerator iconInfo rfl).2.2.2.2.2.2 rfl rfl).1,
   (C10_mapping_with_2x sampleImageGenerator iconInfo rfl).1⟩

end image

namespace image

/-! ## The density mapper on every combination of scales -/

theorem getAndroidMapping_table (g : AndroidImageGenerator) (info : ImageInfo) :
    g.getAndroidMapping info =
      match info.Has1x, info.Has2x, info.Has3x with
      | false, false, false => []
      | true, false, false =>
        [(androidDensity 0, info.Name ++ info.Extension),
         (androidDensity 1, info.Name ++ info.Extension),
         (androidDensity 2, info.Name ++ info.Extension),
         (androidDensity 3, info.Name ++ info.Extension),
         (androidDensity 4, info.Name ++ info.Extension)]
      | false, true, false =>
        [(androidDensity 0, info.Name ++ str "@2x" ++ info.Extension),
         (androidDensity 1, info.Name ++ str "@2x" ++ info.Extension),
         (androidDensity 2, info.Name ++ str "@2x" ++ info.Extension)]
      | true, true, false =>
        [(androidDensity 0, info.Name ++ info.Extension),
         (androidDensity 1, info.Name ++ str "@2x" ++ info.Extension),
         (androidDensity 2, info.Name ++ str "@2x" ++ info.Extension)]
      | false, false, true =>
        [(androidDensity 3, info.Name ++ str "@3x" ++ info.Extension),
         (androidDensity 4, info.Name ++ str "@3x" ++ info.Extension),
         (androidDensity 2, info.Name ++ str "@3x" ++ info.Extension),
         (androidDensity 0, info.Name ++ str "@3x" ++ info.Extension),
         (androidDensity 1, info.Name ++ str "@3x" ++ info.Extension)]
      | true, false, true =>
        [(androidDensity 0, info.Name ++ info.Extension),
         (androidDensity 3, info.Name ++ str "@3x" ++ info.Extension),
         (androidDensity 4, info.Name ++ str "@3x" ++ info.Extension),
         (androidDensity 2, info.Name ++ str "@3x" ++ info.Extension)]
      | false, true, true =>
        [(androidDensity 0, info.Name ++ str "@2x" ++ info.Extension),
         (androidDensity 1, info.Name ++ str "@2x" ++ info.Extension),
         (androidDensity 2, info.Name ++ str "@2x" ++ info.Extension),
         (androidDensity 3, info.Name ++ str "@3x" ++ info.Extension),
         (androidDensity 4, info.Name ++ str "@3x" ++ info.Extension)]
      | true, true, true =>
        [(androidDensity 0, info.Name ++ info.Extension),
         (androidDensity 1, info.Name ++ str "@2x" ++ info.Extension),
         (androidDensity 2, info.Name ++ str "@2x" ++ info.Extension),
         (androidDensity 3, info.Name ++ str "@3x" ++ info.Extension),
         (androidDensity 4, info.Name ++ str "@3x" ++ info.Extension)] := by
  have hr : List.range androidDensities.length = [0, 1, 2, 3, 4] := by decide
  unfold AndroidImageGenerator.getAndroidMapping
  cases h1 : info.Has1x <;> cases h2 : info.Has2x <;> cases h3 : info.Has3x <;>
    simp [hr, GoMap.set, androidDensity_eq_iff]

theorem fileName1x_ne_2x (n e : GoString) : n ++ e ≠ n ++ str "@2x" ++ e := by
  intro h
  have h2 := congrArg List.length h
  simp [str] at h2
  omega

theorem fileName1x_ne_3x (n e : GoString) : n ++ e ≠ n ++ str "@3x" ++ e := by
  intro h
  have h2 := congrArg List.length h
  simp [str] at h2
  omega

theorem fileName2x_ne_3x (n e : GoString) : n ++ str "@2x" ++ e ≠ n ++ str "@3x" ++ e := by
  intro h
  rw [List.append_assoc, List.append_assoc] at h
  have h2 := List.append_cancel_left h
  have h3 := List.append_cancel_right h2
  revert h3
  decide

theorem fileName2x_ne_nil (n e : GoString) : n ++ str "@2x" ++ e ≠ [] := by
  intro h
  have h2 := congrArg List.length h
  simp [str] at h2

theorem fileName3x_ne_nil (n e : GoString) : n ++ str "@3x" ++ e ≠ [] := by
  intro h
  have h2 := congrArg List.length h
  simp [str] at h2

/-- C11: with only the 1x file present, all five buckets map to the 1x file
`Name + Extension`. -/
theorem C11_only_1x_fills_all_buckets (g : AndroidImageGenerator) (info : ImageInfo)
    (h1 : info.Has1x = true) (h2 : info.Has2x = false) (h3 : info.Has3x = false) :
    (g.getAndroidMapping info).get? mdpi = some (info.Name ++ info.Extension) ∧
    (g.getAndroidMapping info).get? hdpi = some (info.Name ++ info.Extension) ∧
    (g.getAndroidMapping info).get? xhdpi = some (info.Name ++ info.Extension) ∧
    (g.getAndroidMapping info).get? xxhdpi = some (info.Name ++ info.Extension) ∧
    (g.getAndroidMapping info).get? xxxhdpi = some (info.Name ++ info.Extension) ∧
    (g.getAndroidMapping info).keys = [mdpi, hdpi, xhdpi, xxhdpi, xxxhdpi] := by
  obtain ⟨e0, e1, e2, e3, e4⟩ := androidDensity_names
  rw [← e0, ← e1, ← e2, ← e3, ← e4, getAndroidMapping_table, h1, h2, h3]
  simp [GoMap.get?, GoMap.keys, androidDensity_eq_iff]

/-- C11, at an image scanned with `logo.png` only. -/
theorem C11_only_1x_fills_all_buckets_witness :
    only1xInfo.Has1x = true ∧ only1xInfo.Has2x = false ∧ only1xInfo.Has3x = false ∧
    (sampleImageGenerator.getAndroidMapping only1xInfo).get? xxxhdpi =
      some (str "logo.png") :=
  ⟨rfl, rfl, rfl,
   (C11_only_1x_fills_all_buckets sampleImageGenerator only1xInfo rfl rfl rfl).2.2.2.2.1⟩

/-- C12: with the 3x file present and the 2x file absent, xhdpi, xxhdpi and
xxxhdpi map to the 3x file; without the 1x file mdpi and hdpi map to the 3x
file too; with the 1x file mdpi maps to it and hdpi is unassigned. -/
theorem C12_mapping_with_3x_without_2x (g : AndroidImageGenerator) (info : ImageInfo)
    (h3 : info.Has3x = true) (h2 : info.Has2x = false) :
    (g.getAndroidMapping info).get? xhdpi =
      some (info.Name ++ str "@3x" ++ info.Extension) ∧
    (g.getAndroidMapping info).get? xxhdpi =
      some (info.Name ++ str "@3x" ++ info.Extension) ∧
    (g.getAndroidMapping info).get? xxxhdpi =
      some (info.Name ++ str "@3x" ++ info.Extension) ∧
    (info.Has1x = false →
      (g.getAndroidMapping info).get? mdpi =
        some (info.Name ++ str "@3x" ++ info.Extension) ∧
      (g.getAndroidMapping info).get? hdpi =
        some (info.Name ++ str "@3x" ++ info.Extension)) ∧
    (info.Has1x = true →
      (g.getAndroidMapping info).get? mdpi = some (info.Name ++ info.Extension) ∧
      (g.getAndroidMapping info).get? hdpi = none) := by
  obtain ⟨e0, e1, e2, e3, e4⟩ := androidDensity_names
  rw [← e0, ← e1, ← e2, ← e3, ← e4, getAndroidMapping_table, h2, h3]
  cases h1 : info.Has1x <;> simp [GoMap.get?, androidDensity_eq_iff]

/-- C12, at an image scanned with `logo@3x.png` only: mdpi takes the 3x file. -/
theorem C12_mapping_with_3x_without_2x_witness :
    only3xInfo.Has3x = true ∧ only3xInfo.Has2x = false ∧ only3xInfo.Has1x = false ∧
    (sampleImageGenerator.getAndroidMapping only3xInfo).get? mdpi =
      some (str "logo@3x.png") :=
  ⟨rfl, rfl, rfl,
   ((C12_mapping_with_3x_without_2x sampleImageGenerator only3xInfo rfl rfl).2.2.2.1 rfl).1⟩

end image

namespace image

/-! ## Files assigned by the density mapper -/

theorem androidDensity_mem (i : Nat) (hi : i < 5) : androidDensity i ∈ androidDensities := by
  interval_cases i <;> simp [androidDensity, androidDensities]

theorem getAndroidMapping_keys_nodup (g : AndroidImageGenerator) (info : ImageInfo) :
    (g.getAndroidMapping info).keys.Nodup := by
  rw [getAndroidMapping_table]
  cases info.Has1x <;> cases info.Has2x <;> cases info.Has3x <;>
    simp [GoMap.keys, androidDensity_eq_iff]

theorem getAndroidMapping_keys_mem (g : AndroidImageGenerator) (info : ImageInfo)
    (d : AndroidDensity) (hd : d ∈ (g.getAndroidMapping info).keys) : d ∈ androidDensities := by
  have m0 := androidDensity_mem 0 (by decide)
  have m1 := androidDensity_mem 1 (by decide)
  have m2 := androidDensity_mem 2 (by decide)
  have m3 := androidDensity_mem 3 (by decide)
  have m4 := androidDensity_mem 4 (by decide)
  rw [getAndroidMapping_table] at hd
  revert hd
  cases info.Has1x <;> cases info.Has2x <;> cases info.Has3x <;>
    simp only [GoMap.keys, List.map_cons, List.map_nil, List.mem_cons, List.mem_nil_iff,
      or_false] <;>
    intro hd <;> aesop

theorem getAndroidMapping_values (g : AndroidImageGenerator) (info : ImageInfo)
    (f : GoString) :
    f ∈ (g.getAndroidMapping info).map Prod.snd ↔
      ((info.Has1x = true ∧ f = info.Name ++ info.Extension) ∨
       (info.Has2x = true ∧ f = info.Name ++ str "@2x" ++ info.Extension) ∨
       (info.Has3x = true ∧ f = info.Name ++ str "@3x" ++ info.Extension)) := by
  rw [getAndroidMapping_table]
  cases info.Has1x <;> cases info.Has2x <;> cases info.Has3x <;> simp

theorem exists_get?_iff_mem_values (m : GoMap AndroidDensity GoString) (hk : m.keys.Nodup)
    (f : GoString) : (∃ d, m.get? d = some f) ↔ f ∈ m.map Prod.snd := by
  constructor
  · rintro ⟨d, hd⟩
    exact List.mem_map.mpr ⟨(d, f), GoMap.mem_of_get?_eq_some m d f hd, rfl⟩
  · intro hf
    obtain ⟨e, he, hef⟩ := List.mem_map.mp hf
    refine ⟨e.1, ?_⟩
    rw [← hef]
    exact GoMap.get?_eq_some_of_mem m hk e.1 e.2 he

/-- C13 as the code has it: the files that getAndroidMapping assigns to buckets
are exactly the 1x, 2x and 3x files whose flag is set; every key is one of the
five buckets; no bucket maps to the file of an absent scale; the mapping is
empty when no scale is present; and no bucket maps to the empty string when
`Name + Extension` is not empty. -/
theorem C13_assigned_files_are_present_files (g : AndroidImageGenerator) (info : ImageInfo) :
    (∀ f, (∃ d, (g.getAndroidMapping info).get? d = some f) ↔
      ((info.Has1x = true ∧ f = info.Name ++ info.Extension) ∨
       (info.Has2x = true ∧ f = info.Name ++ str "@2x" ++ info.Extension) ∨
       (info.Has3x = true ∧ f = info.Name ++ str "@3x" ++ info.Extension))) ∧
    (∀ d f, (g.getAndroidMapping info).get? d = some f → d ∈ androidDensities) ∧
    (info.Has1x = false →
      ∀ d, (g.getAndroidMapping info).get? d ≠ some (info.Name ++ info.Extension)) ∧
    (info.Has2x = false →
      ∀ d, (g.getAndroidMapping info).get? d ≠
        some (info.Name ++ str "@2x" ++ info.Extension)) ∧
    (info.Has3x = false →
      ∀ d, (g.getAndroidMapping info).get? d ≠
        some (info.Name ++ str "@3x" ++ info.Extension)) ∧
    (info.Name ++ info.Extension ≠ [] →
      ∀ d, (g.getAndroidMapping info).get? d ≠ some []) ∧
    (info.Has1x = false → info.Has2x = false → info.Has3x = false →
      g.getAndroidMapping info = []) := by
  have hiff : ∀ f, (∃ d, (g.getAndroidMapping info).get? d = some f) ↔
      ((info.Has1x = true ∧ f = info.Name ++ info.Extension) ∨
       (info.Has2x = true ∧ f = info.Name ++ str "@2x" ++ info.Extension) ∨
       (info.Has3x = true ∧ f = info.Name ++ str "@3x" ++ info.Extension)) := by
    intro f
    rw [exists_get?_iff_mem_values _ (getAndroidMapping_keys_nodup g info)]
    exact getAndroidMapping_values g info f
  have n12 := fileName1x_ne_2x info.Name info.Extension
  have n13 := fileName1x_ne_3x info.Name info.Extension
  have n23 := fileName2x_ne_3x info.Name info.Extension
  have n2 := fileName2x_ne_nil info.Name info.Extension
  have n3 := fileName3x_ne_nil info.Name info.Extension
  refine ⟨hiff, ?_, ?_, ?_, ?_, ?_, ?_⟩
  · intro d f hd
    exact getAndroidMapping_keys_mem g info d
      ((GoMap.mem_keys_iff_get? _ d).mpr ⟨f, hd⟩)
  · intro h1 d hd
    rcases (hiff _).mp ⟨d, hd⟩ with ⟨h, _⟩ | ⟨_, h⟩ | ⟨_, h⟩
    · rw [h1] at h
      cases h
    · exact n12 h
    · exact n13 h
  · intro h2 d hd
    rcases (hiff _).mp ⟨d, hd⟩ with ⟨_, h⟩ | ⟨h, _⟩ | ⟨_, h⟩
    · exact n12 h.symm
    · rw [h2] at h
      cases h
    · exact n23 h
  · intro h3 d hd
    rcases (hiff _).mp ⟨d, hd⟩ with ⟨_, h⟩ | ⟨_, h⟩ | ⟨h, _⟩
    · exact n13 h.symm
    · exact n23 h.symm
    · rw [h3] at h
      cases h
  · intro hne d hd
    rcases (hiff _).mp ⟨d, hd⟩ with ⟨_, h⟩ | ⟨_, h⟩ | ⟨_, h⟩
    · exact hne h.symm
    · exact n2 h.symm
    · exact n3 h.symm
  · intro h1 h2 h3
    rw [getAndroidMapping_table, h1, h2, h3]

/-- C13 as amended, at an image scanned with `logo@3x.png` only: no bucket
maps to the empty string. -/
theorem C13_assigned_files_are_present_files_witness :
    only3xInfo.Name ++ only3xInfo.Extension ≠ [] ∧
    (sampleImageGenerator.getAndroidMapping only3xInfo).get? mdpi ≠ some [] :=
  ⟨by decide,
   (C13_assigned_files_are_present_files sampleImageGenerator only3xInfo).2.2.2.2.2.1
      (by decide) mdpi⟩

/-- C13, as stated, fails at the ImageInfo with empty Name and Extension and
the 1x flag set: every bucket, here mdpi, maps to the empty string. -/
theorem C13_blank_name_maps_to_empty_string :
    blankInfo.Has1x = true ∧
    (sampleImageGenerator.getAndroidMapping blankInfo).get? mdpi = some [] := by
  refine ⟨rfl, ?_⟩
  rw [← androidDensity_names.1, getAndroidMapping_table]
  simp [blankInfo, GoMap.get?]

end image

namespace image

/-! ## The iOS image emitter (`ios.go`) -/

/-- C14: buildImageSet returns three slots, of scales `1x`, `2x`, `3x` in this
order and of idiom `universal`; the filename of a slot is `Name + suffix +
Extension` (suffix empty, `@2x`, `@3x`) when the flag of its scale is set and
empty otherwise, so that, `Name + Extension` being non-empty, a slot has a
non-empty filename exactly when its flag is set; Info is author `xcode`,
version 1. -/
theorem C14_buildImageSet_slots (g : IOSImageGenerator) (info : ImageInfo) :
    (g.buildImageSet info).Images.length = 3 ∧
    (g.buildImageSet info).Images.map iOSImage.Scale = [str "1x", str "2x", str "3x"] ∧
    (g.buildImageSet info).Images.map iOSImage.Idiom =
      [str "universal", str "universal", str "universal"] ∧
    (g.buildImageSet info).Images.map iOSImage.Filename =
      [if info.Has1x = true then info.Name ++ info.Extension else [],
       if info.Has2x = true then info.Name ++ str "@2x" ++ info.Extension else [],
       if info.Has3x = true then info.Name ++ str "@3x" ++ info.Extension else []] ∧
    (g.buildImageSet info).Info = { Author := str "xcode", Version := 1 } ∧
    (info.Name ++ info.Extension ≠ [] →
      (((g.buildImageSet info).Images.map iOSImage.Filename).getD 0 [] ≠ [] ↔
        info.Has1x = true) ∧
      (((g.buildImageSet info).Images.map iOSImage.Filename).getD 1 [] ≠ [] ↔
        info.Has2x = true) ∧
      (((g.buildImageSet info).Images.map iOSImage.Filename).getD 2 [] ≠ [] ↔
        info.Has3x = true)) := by
  have n2 := fileName2x_ne_nil info.Name info.Extension
  have n3 := fileName3x_ne_nil info.Name info.Extension
  have hfiles : (g.buildImageSet info).Images.map iOSImage.Filename =
      [if info.Has1x = true then info.Name ++ info.Extension else [],
       if info.Has2x = true then info.Name ++ str "@2x" ++ info.Extension else [],
       if info.Has3x = true then info.Name ++ str "@3x" ++ info.Extension else []] := by
    unfold IOSImageGenerator.buildImageSet
    cases info.Has1x <;> cases info.Has2x <;> cases info.Has3x <;> simp
  refine ⟨?_, ?_, ?_, hfiles, rfl, ?_⟩
  · unfold IOSImageGenerator.buildImageSet
    cases info.Has1x <;> cases info.Has2x <;> cases info.Has3x <;> simp
  · unfold IOSImageGenerator.buildImageSet
    cases info.Has1x <;> cases info.Has2x <;> cases info.Has3x <;> simp
  · unfold IOSImageGenerator.buildImageSet
    cases info.Has1x <;> cases info.Has2x <;> cases info.Has3x <;> simp
  · intro hne
    rw [hfiles]
    refine ⟨?_, ?_, ?_⟩
    · cases info.Has1x <;> simp [hne]
    · cases info.Has2x
      · simp
      · simpa using n2
    · cases info.Has3x
      · simp
      · simpa using n3

/-- C14, at an image scanned with its 1x and 2x files: the 3x slot has no
filename. -/
theorem C14_buildImageSet_slots_witness :
    iconInfo.Name ++ iconInfo.Extension ≠ [] ∧
    (sampleIOSImageGenerator.buildImageSet iconInfo).Images =
      [{ Filename := str "icon.png", Idiom := str "universal", Scale := str "1x" },
       { Filename := str "icon@2x.png", Idiom := str "universal", Scale := str "2x" },
       { Filename := [], Idiom := str "universal", Scale := str "3x" }] ∧
    ((((sampleIOSImageGenerator.buildImageSet iconInfo).Images.map iOSImage.Filename).getD
        2 [] ≠ []) ↔ iconInfo.Has3x = true) :=
  ⟨by decide, by decide,
   ((C14_buildImageSet_slots sampleIOSImageGenerator iconInfo).2.2.2.2.2 (by decide)).2.2⟩

end image

namespace color

/-! ## Stripping of trailing zeros (`generator.go`) -/

theorem getD_snoc_two (l : GoString) (a b : Nat) :
    (l ++ [a, b]).getD ((l ++ [a, b]).length - 1) 0 = b ∧
    (l ++ [a, b]).getD ((l ++ [a, b]).length - 2) 0 = a := by
  induction l with
  | nil => simp
  | cons x t ih =>
    have h1 : (x :: t ++ [a, b]).length - 1 = ((t ++ [a, b]).length - 1) + 1 := by
      simp
    have h2 : (x :: t ++ [a, b]).length - 2 = ((t ++ [a, b]).length - 2) + 1 := by
      simp
    rw [h1, h2]
    simpa using ih

theorem stripGuard_snoc_two (l : GoString) (a b : Nat) :
    stripGuard (l ++ [a, b]) = (b == '0'.toNat && a != '.'.toNat) := by
  obtain ⟨h1, h2⟩ := getD_snoc_two l a b
  unfold stripGuard
  rw [h1, h2]
  simp

theorem stripZeros_succ (fuel : Nat) (s : GoString) :
    stripZeros (fuel + 1) s =
      if stripGuard s then stripZeros fuel (s.take (s.length - 1)) else s := rfl

theorem stripZeros_of_guard_false (fuel : Nat) (s : GoString) (h : stripGuard s = false) :
    stripZeros fuel s = s := by
  cases fuel with
  | zero => rfl
  | succ n => rw [stripZeros_succ, h]; rfl

theorem stripZeros_snoc_two_strip (fuel : Nat) (l : GoString) (a b : Nat)
    (hb : b = '0'.toNat) (ha : a ≠ '.'.toNat) :
    stripZeros (fuel + 1) (l ++ [a, b]) = stripZeros fuel (l ++ [a]) := by
  have ha2 : ¬ a = 46 := ha
  have hg : stripGuard (l ++ [a, b]) = true := by
    rw [stripGuard_snoc_two]
    simp [hb, ha2]
  have ht : (l ++ [a, b]).take ((l ++ [a, b]).length - 1) = l ++ [a] := by
    have h1 : (l ++ [a, b]).length - 1 = (l ++ [a]).length := by simp
    have h2 : l ++ [a, b] = (l ++ [a]) ++ [b] := by simp
    rw [h1, h2, List.take_left]
  rw [stripZeros_succ, hg, ht]
  rfl

theorem isDigitRef_ne_dot (c : Nat) (h : isDigitRef c = true) : c ≠ '.'.toNat := by
  intro hc
  rw [hc] at h
  revert h
  decide

/-- C15: on a string `s` of one or more digits, a dot and three digits, the loop
of formatFloat ends, with enough passes (as many as zeros are dropped, and
`len(s)` are enough), at the prefix `r` of `s` such that `s` is `r` followed by
zeros only, `r` keeps the dot followed by at least one digit, and `r` ends in a
digit other than zero or has exactly one digit after the dot. -/
theorem C15_formatFloat_strips_trailing_zeros (ip : GoString) (d1 d2 d3 : Nat)
    (_hip : ip ≠ []) (_hipd : ∀ c ∈ ip, isDigitRef c = true)
    (h1 : isDigitRef d1 = true) (h2 : isDigitRef d2 = true) (_h3 : isDigitRef d3 = true) :
    ∃ frac zeros : GoString,
      ip ++ '.'.toNat :: [d1, d2, d3] = (ip ++ '.'.toNat :: frac) ++ zeros ∧
      (∀ z ∈ zeros, z = '0'.toNat) ∧
      frac ≠ [] ∧
      (∀ c ∈ frac, isDigitRef c = true) ∧
      (frac.length = 1 ∨ frac.getLast? ≠ some '0'.toNat) ∧
      (∀ fuel, zeros.length ≤ fuel →
        stripZeros fuel (ip ++ '.'.toNat :: [d1, d2, d3]) = ip ++ '.'.toNat :: frac) ∧
      stripGuard (ip ++ '.'.toNat :: frac) = false ∧
      (∀ (lib : FmtCalls) (f : Float64), lib.sprintf3f f = ip ++ '.'.toNat :: [d1, d2, d3] →
        formatFloat lib f = ip ++ '.'.toNat :: frac) := by
  have hd1 : d1 ≠ '.'.toNat := isDigitRef_ne_dot d1 h1
  have hd2 : d2 ≠ '.'.toNat := isDigitRef_ne_dot d2 h2
  have e3 : ip ++ '.'.toNat :: [d1, d2, d3] = (ip ++ ['.'.toNat, d1]) ++ [d2, d3] := by simp
  have e2 : ip ++ '.'.toNat :: [d1, d2] = (ip ++ ['.'.toNat]) ++ [d1, d2] := by simp
  have e1 : ip ++ '.'.toNat :: [d1] = ip ++ ['.'.toNat, d1] := by simp
  have hlen : (ip ++ '.'.toNat :: [d1, d2, d3]).length = ip.length + 4 := by simp
  -- the result for every sufficient fuel gives the result of formatFloat
  have hfmt : ∀ (frac zeros : GoString), zeros.length ≤ 4 →
      (∀ fuel, zeros.length ≤ fuel →
        stripZeros fuel (ip ++ '.'.toNat :: [d1, d2, d3]) = ip ++ '.'.toNat :: frac) →
      ∀ (lib : FmtCalls) (f : Float64), lib.sprintf3f f = ip ++ '.'.toNat :: [d1, d2, d3] →
        formatFloat lib f = ip ++ '.'.toNat :: frac := by
    intro frac zeros hz hfuel lib f hs
    unfold formatFloat
    simp only [hs]
    exact hfuel _ (by rw [hlen]; omega)
  by_cases c3 : d3 = '0'.toNat
  · by_cases c2 : d2 = '0'.toNat
    · -- two zeros are dropped
      have hg : stripGuard (ip ++ '.'.toNat :: [d1]) = false := by
        rw [e1, stripGuard_snoc_two]
        simp
      have hfuel : ∀ fuel, 2 ≤ fuel →
          stripZeros fuel (ip ++ '.'.toNat :: [d1, d2, d3]) = ip ++ '.'.toNat :: [d1] := by
        intro fuel hf
        obtain ⟨n, rfl⟩ : ∃ n, fuel = n + 1 + 1 := ⟨fuel - 2, by omega⟩
        rw [e3, stripZeros_snoc_two_strip _ _ _ _ c3 hd2]
        have e4 : ip ++ ['.'.toNat, d1] ++ [d2] = (ip ++ ['.'.toNat]) ++ [d1, d2] := by simp
        rw [e4, stripZeros_snoc_two_strip _ _ _ _ c2 hd1]
        have e5 : ip ++ ['.'.toNat] ++ [d1] = ip ++ '.'.toNat :: [d1] := by simp
        rw [e5]
        exact stripZeros_of_guard_false n _ hg
      refine ⟨[d1], [d2, d3], by simp, ?_, by simp, ?_, Or.inl rfl, ?_, hg, ?_⟩
      · intro z hz
        simp only [List.mem_cons, List.mem_singleton, List.mem_nil_iff, or_false] at hz
        rcases hz with hz | hz
        · rw [hz, c2]
        · rw [hz, c3]
      · intro c hc
        rw [List.mem_singleton.mp hc]
        exact h1
      · intro fuel hf
        exact hfuel fuel (by simpa using hf)
      · exact hfmt [d1] [d2, d3] (by simp) (fun fuel hf => hfuel fuel (by simpa using hf))
    · -- one zero is dropped
      have c2n : ¬ d2 = 48 := c2
      have hg : stripGuard (ip ++ '.'.toNat :: [d1, d2]) = false := by
        rw [e2, stripGuard_snoc_two]
        simp [c2n]
      have hfuel : ∀ fuel, 1 ≤ fuel →
          stripZeros fuel (ip ++ '.'.toNat :: [d1, d2, d3]) = ip ++ '.'.toNat :: [d1, d2] := by
        intro fuel hf
        obtain ⟨n, rfl⟩ : ∃ n, fuel = n + 1 := ⟨fuel - 1, by omega⟩
        rw [e3, stripZeros_snoc_two_strip _ _ _ _ c3 hd2]
        have e4 : ip ++ ['.'.toNat, d1] ++ [d2] = ip ++ '.'.toNat :: [d1, d2] := by simp
        rw [e4]
        exact stripZeros_of_guard_false n _ hg
      refine ⟨[d1, d2], [d3], by simp, ?_, by simp, ?_, Or.inr ?_, ?_, hg, ?_⟩
      · intro z hz
        rw [List.mem_singleton.mp hz, c3]
      · intro c hc
        simp only [List.mem_cons, List.mem_singleton, List.mem_nil_iff, or_false] at hc
        rcases hc with hc | hc
        · rw [hc]; exact h1
        · rw [hc]; exact h2
      · simpa using c2
      · intro fuel hf
        exact hfuel fuel (by simpa using hf)
      · exact hfmt [d1, d2] [d3] (by simp) (fun fuel hf => hfuel fuel (by simpa using hf))
  · -- nothing is dropped
    have c3n : ¬ d3 = 48 := c3
    have hg : stripGuard (ip ++ '.'.toNat :: [d1, d2, d3]) = false := by
      rw [e3, stripGuard_snoc_two]
      simp [c3n]
    have hfuel : ∀ fuel,
        stripZeros fuel (ip ++ '.'.toNat :: [d1, d2, d3]) =
          ip ++ '.'.toNat :: [d1, d2, d3] :=
      fun fuel => stripZeros_of_guard_false fuel _ hg
    refine ⟨[d1, d2, d3], [], by simp, by simp, by simp, ?_, Or.inr ?_, ?_, hg, ?_⟩
    · intro c hc
      simp only [List.mem_cons, List.mem_singleton, List.mem_nil_iff, or_false] at hc
      rcases hc with hc | hc | hc
      · rw [hc]; exact h1
      · rw [hc]; exact h2
      · rw [hc]; exact _h3
    · simpa using c3
    · intro fuel _
      exact hfuel fuel
    · exact hfmt [d1, d2, d3] [] (by simp) (fun fuel _ => hfuel fuel)

/-- C15, at `1.000`, which is stripped to `1.0`. -/
theorem C15_formatFloat_strips_trailing_zeros_witness :
    str "1" ≠ [] ∧ isDigitRef '0'.toNat = true ∧
    stripZeros (str "1.000").length (str "1.000") = str "1.0" ∧
    stripZeros (str "0.500").length (str "0.500") = str "0.5" ∧
    stripZeros (str "0.502").length (str "0.502") = str "0.502" ∧
    ∃ frac zeros : GoString,
      str "1" ++ '.'.toNat :: ['0'.toNat, '0'.toNat, '0'.toNat] =
        (str "1" ++ '.'.toNat :: frac) ++ zeros ∧
      (∀ z ∈ zeros, z = '0'.toNat) ∧
      frac ≠ [] ∧
      (∀ c ∈ frac, isDigitRef c = true) ∧
      (frac.length = 1 ∨ frac.getLast? ≠ some '0'.toNat) ∧
      (∀ fuel, zeros.length ≤ fuel →
        stripZeros fuel (str "1" ++ '.'.toNat :: ['0'.toNat, '0'.toNat, '0'.toNat]) =
          str "1" ++ '.'.toNat :: frac) ∧
      stripGuard (str "1" ++ '.'.toNat :: frac) = false ∧
      (∀ (lib : FmtCalls) (f : Float64),
        lib.sprintf3f f = str "1" ++ '.'.toNat :: ['0'.toNat, '0'.toNat, '0'.toNat] →
        formatFloat lib f = str "1" ++ '.'.toNat :: frac) :=
  ⟨by decide, by decide, by decide, by decide, by decide,
   C15_formatFloat_strips_trailing_zeros (str "1") '0'.toNat '0'.toNat '0'.toNat
     (by decide) (by decide) (by decide) (by decide) (by decide)⟩

end color

namespace image

/-! ## Scanned files and assigned file names -/

/-- C16 fails on the code: scanning `icon.png` and `icon@2x.jpg` gives one
ImageInfo of Extension `.png`, for which getAndroidMapping assigns `icon@2x.png`
to hdpi and buildImageSet puts `icon@2x.png` in the 2x slot, a name that is not
in Files; scanning `logo.PNG` gives Extension `.png`, and mdpi and the 1x slot
get `logo.png`, again not in Files. -/
theorem C16_assigned_name_not_among_scanned_files :
    (scanImages [str "icon.png", str "icon@2x.jpg"] = [(str "icon", mixedInfo)] ∧
      (sampleImageGenerator.getAndroidMapping mixedInfo).get? hdpi =
        some (str "icon@2x.png") ∧
      ((sampleIOSImageGenerator.buildImageSet mixedInfo).Images.map
        iOSImage.Filename).getD 1 [] = str "icon@2x.png" ∧
      str "icon@2x.png" ∉ mixedInfo.Files) ∧
    (scanImages [str "logo.PNG"] = [(str "logo", upperInfo)] ∧
      (sampleImageGenerator.getAndroidMapping upperInfo).get? mdpi =
        some (str "logo.png") ∧
      ((sampleIOSImageGenerator.buildImageSet upperInfo).Images.map
        iOSImage.Filename).getD 0 [] = str "logo.png" ∧
      str "logo.png" ∉ upperInfo.Files) := by
  refine ⟨⟨by decide, ?_, by decide, by decide⟩, ⟨by decide, ?_, by decide, by decide⟩⟩
  · rw [← androidDensity_names.2.1, getAndroidMapping_table]
    simp [mixedInfo, GoMap.get?, androidDensity_eq_iff]
    decide
  · rw [← androidDensity_names.1, getAndroidMapping_table]
    simp [upperInfo, GoMap.get?]
    decide

end image
